import Mathlib

/-!
Verification development for the votigo voting engine.

The definitions below are a shallow embedding of the Go sources:
the logical schema (internal/db/schema.sql), the sqlc queries
(queries.sql), the web handlers (internal/web/server.go) and the CLI
lifecycle commands (cmd/lifecycle.go).  Machine integers are modelled
as Int, SQL NULL as Option, fallible storage steps as Except.
-/

namespace Votigo

/-! ## Data model: the four tables of schema.sql -/

/-- A row of the categories table. -/
structure Category where
  id : Int
  name : String
  voteType : String
  status : String
  showResults : String
  maxRank : Option Int
deriving DecidableEq

/-- A row of the options table; sortOrder is nullable in the schema. -/
structure OptionRow where
  id : Int
  categoryId : Int
  name : String
  sortOrder : Option Int
deriving DecidableEq

/-- A row of the votes table (created_at is not observable by any claim). -/
structure Vote where
  id : Int
  categoryId : Int
  nickname : String
deriving DecidableEq

/-- A row of the vote_selections table. -/
structure VoteSelection where
  id : Int
  voteId : Int
  optionId : Int
  rank : Option Int
deriving DecidableEq

/-- The database: table contents plus the next fresh primary keys.
Foreign keys are enforced on every insert because db.Open runs
PRAGMA foreign_keys = ON at connection open (internal/db/connect.go). -/
structure DBState where
  categories : List Category
  options : List OptionRow
  votes : List Vote
  selections : List VoteSelection
  nextVoteId : Int
  nextSelId : Int
deriving DecidableEq

/-! ## Storage access: the sqlc queries used by the claims -/

/-- GetCategory: SELECT * FROM categories WHERE id = ?. -/
def GetCategory (st : DBState) (id : Int) : Option Category :=
  st.categories.find? (fun c => c.id == id)

/-- CountOptionsByCategory: SELECT COUNT(*) FROM options WHERE category_id = ?. -/
def CountOptionsByCategory (st : DBState) (cid : Int) : Nat :=
  (st.options.filter (fun o => o.categoryId == cid)).length

/-- UpdateCategoryStatus: UPDATE categories SET status = ? WHERE id = ?. -/
def UpdateCategoryStatus (st : DBState) (status : String) (id : Int) : DBState :=
  { st with categories :=
      st.categories.map (fun c => if c.id = id then { c with status := status } else c) }

/-- ArchiveCategory: UPDATE categories SET status = 'archived' WHERE id = ?. -/
def ArchiveCategory (st : DBState) (id : Int) : DBState :=
  UpdateCategoryStatus st "archived" id

/-- CountVotesByCategory: SELECT COUNT(*) FROM votes WHERE category_id = ?. -/
def CountVotesByCategory (st : DBState) (cid : Int) : Nat :=
  (st.votes.filter (fun v => v.categoryId == cid)).length

/-- The vote row selected by the UNIQUE(category_id, nickname) key. -/
def findVote (st : DBState) (cid : Int) (nick : String) : Option Vote :=
  st.votes.find? (fun v => v.categoryId == cid && v.nickname == nick)

/-! ## Category lifecycle operations -/

/-- Outcome of a lifecycle request as observed by the caller. -/
inductive LifecycleResult where
  | ok
  | needsOptions
  | notFound
deriving DecidableEq

/-- handleAdminOpen (internal/web/server.go): count the options; with
zero options render the needs-options error, otherwise set status to
open.  The current status is never read. -/
def handleAdminOpen (st : DBState) (id : Int) : DBState × LifecycleResult :=
  if CountOptionsByCategory st id = 0 then
    (st, LifecycleResult.needsOptions)
  else
    (UpdateCategoryStatus st "open" id, LifecycleResult.ok)

/-- OpenCmd.Run (cmd/lifecycle.go): check existence, then the option
count, then set status to open.  The current status is never read. -/
def openCmdRun (st : DBState) (id : Int) : DBState × LifecycleResult :=
  match GetCategory st id with
  | none => (st, LifecycleResult.notFound)
  | some _ =>
    if CountOptionsByCategory st id = 0 then
      (st, LifecycleResult.needsOptions)
    else
      (UpdateCategoryStatus st "open" id, LifecycleResult.ok)

/-- handleAdminClose (internal/web/server.go): set status to closed
unconditionally. -/
def handleAdminClose (st : DBState) (id : Int) : DBState × LifecycleResult :=
  (UpdateCategoryStatus st "closed" id, LifecycleResult.ok)

/-- CloseCmd.Run (cmd/lifecycle.go): check existence, then set status
to closed unconditionally. -/
def closeCmdRun (st : DBState) (id : Int) : DBState × LifecycleResult :=
  match GetCategory st id with
  | none => (st, LifecycleResult.notFound)
  | some _ => (UpdateCategoryStatus st "closed" id, LifecycleResult.ok)

/-! ## Results visibility -/

/-- The visibility test of handleResults (internal/web/server.go):
the page is the not-visible page exactly when show_results is
after_close and status is not closed. -/
def resultsNotVisible (cat : Category) : Bool :=
  cat.showResults == "after_close" && cat.status != "closed"

/-- Effective max rank: the stored max_rank when present, else 3.
This defaulting appears verbatim in handleVote, handleVoteSubmit,
handleResults and ResultsCmd.Run. -/
def effectiveMaxRank (cat : Category) : Int :=
  match cat.maxRank with
  | some m => m
  | none => 3

/-! ## A deterministic model of SQL ORDER BY

Rows are compared through an integer key list read left to right, the
last component being a unique id, so the resulting order is total.
An insertion sort realises the ordering. -/

/-- Lexicographic comparison of integer key lists. -/
def keyLE : List Int → List Int → Bool
  | [], _ => true
  | _ :: _, [] => false
  | a :: as, b :: bs => if a = b then keyLE as bs else decide (a < b)

/-- Insert one row into a run sorted by the key. -/
def insertRow (key : α → List Int) (a : α) : List α → List α
  | [] => [a]
  | b :: bs => if keyLE (key a) (key b) then a :: b :: bs else b :: insertRow key a bs

/-- ORDER BY the given key list. -/
def orderBy (key : α → List Int) : List α → List α
  | [] => []
  | a :: as => insertRow key a (orderBy key as)

/-- ListCategoriesWithResults (queries.sql): categories whose results
page is linked from the results list, ordered by id. -/
def ListCategoriesWithResults (st : DBState) : List Category :=
  orderBy (fun c => [c.id]) (st.categories.filter (fun c =>
    (c.showResults == "live" && c.status == "open") ||
    (c.showResults == "after_close" && c.status == "closed")))

/-- Key component for a nullable integer column: SQLite sorts NULL
before every value in ascending order. -/
def nullKey : Option Int → List Int
  | none => [0, 0]
  | some v => [1, v]

/-! ## Tally engine -/

/-- One row of the TallySimple result set. -/
structure SimpleRow where
  id : Int
  name : String
  votes : Nat
deriving DecidableEq

/-- One row of the TallyRanked result set. -/
structure RankedRow where
  id : Int
  name : String
  points : Int
  firstPlaceVotes : Nat
deriving DecidableEq

/-- COUNT(vs.id) of the LEFT JOIN: the number of selections anywhere
in the store that reference the option. -/
def selCount (sels : List VoteSelection) (oid : Int) : Nat :=
  (sels.filter (fun s => s.optionId == oid)).length

/-- COALESCE(SUM(max_rank - vs.rank + 1), 0) for one option: ranked
points; selections with a NULL rank are skipped by SQL SUM, an empty
sum is 0. -/
def rankedPoints (sels : List VoteSelection) (maxRank : Int) (oid : Int) : Int :=
  (((sels.filter (fun s => s.optionId == oid)).filterMap (fun s => s.rank)).map
    (fun r => maxRank - r + 1)).sum

/-- COUNT(CASE WHEN vs.rank = 1 THEN 1 END) for one option. -/
def firstPlace (sels : List VoteSelection) (oid : Int) : Nat :=
  (sels.filter (fun s => s.optionId == oid && s.rank == some 1)).length

/-- ORDER BY votes DESC, o.sort_order, o.id of TallySimple. -/
def simpleKey (sels : List VoteSelection) (o : OptionRow) : List Int :=
  (-(selCount sels o.id : Int)) :: nullKey o.sortOrder ++ [o.id]

/-- ORDER BY points DESC, first_place_votes DESC, o.sort_order, o.id
of TallyRanked. -/
def rankedKey (sels : List VoteSelection) (maxRank : Int) (o : OptionRow) : List Int :=
  (-(rankedPoints sels maxRank o.id)) :: (-(firstPlace sels o.id : Int)) ::
    nullKey o.sortOrder ++ [o.id]

/-- TallySimple (queries.sql): per option of the category, the count
of selections referencing it, options with no selections included at
count 0 through the LEFT JOIN. -/
def TallySimple (st : DBState) (cid : Int) : List SimpleRow :=
  (orderBy (simpleKey st.selections)
      (st.options.filter (fun o => o.categoryId == cid))).map
    (fun o => { id := o.id, name := o.name, votes := selCount st.selections o.id })

/-- TallyRanked (queries.sql): per option of the category, the summed
points and the first-place count. -/
def TallyRanked (st : DBState) (maxRank : Int) (cid : Int) : List RankedRow :=
  (orderBy (rankedKey st.selections maxRank)
      (st.options.filter (fun o => o.categoryId == cid))).map
    (fun o => { id := o.id, name := o.name,
                points := rankedPoints st.selections maxRank o.id,
                firstPlaceVotes := firstPlace st.selections o.id })

/-! ## Ballot engine -/

/-- Base-10 digit validity test of strconv.ParseInt. -/
def goDigits (cs : List Char) : Bool :=
  cs ≠ [] && cs.all Char.isDigit

/-- The digit list of a candidate integer literal, sign stripped,
paired with its sign. -/
def goSignSplit (s : String) : Bool × List Char :=
  match s.data with
  | '-' :: rest => (true, rest)
  | '+' :: rest => (false, rest)
  | cs => (false, cs)

/-- Whether strconv.ParseInt(s, 10, 64) parses s without a syntax
error (a range overflow is not a syntax error). -/
def goIntSyntax (s : String) : Bool :=
  goDigits (goSignSplit s).2

/-- The numeric value of a digit string. -/
def digitsVal (cs : List Char) : Int :=
  (cs.foldl (fun acc c => acc * 10 + (c.toNat - 48)) 0 : Nat)

/-- strconv.ParseInt(s, 10, 64) with the error discarded, as the vote
handler does with `optID, _ := strconv.ParseInt(...)`: a syntax error
yields 0, a range error yields the clamped int64 bound. -/
def goParseInt64 (s : String) : Int :=
  if goDigits (goSignSplit s).2 then
    if (goSignSplit s).1 then
      if digitsVal (goSignSplit s).2 > 2 ^ 63 then -(2 ^ 63)
      else -(digitsVal (goSignSplit s).2)
    else
      if digitsVal (goSignSplit s).2 > 2 ^ 63 - 1 then 2 ^ 63 - 1
      else digitsVal (goSignSplit s).2
  else 0

/-- strings.TrimSpace: drop leading and trailing whitespace. -/
def goTrimSpace (s : String) : String :=
  ⟨((s.data.dropWhile Char.isWhitespace).reverse.dropWhile Char.isWhitespace).reverse⟩

/-- strings.ToLower: lowercase every character. -/
def goToLower (s : String) : String :=
  ⟨s.data.map Char.toLower⟩

/-- The submitted form: every value the handler reads from r.Form.
choice holds all values posted under the name choice (FormValue reads
the first); rank i is the value posted under the name rank⟨i⟩, empty
when absent. -/
structure VoteForm where
  nickname : String
  choice : List String
  rank : Int → String

/-- The rank positions 1 .. maxRank that the ranked loop visits. -/
def rankIndices (maxRank : Int) : List Int :=
  (List.range maxRank.toNat).map (fun (k : Nat) => ((k : Int) + 1))

/-- The ranked collection loop of handleVoteSubmit: walk the rank
positions, skip empty values, reject a repeated option id against the
seen set, and record (option id, rank). -/
def collectRanked (form : VoteForm) : List Int → List Int → Except String (List (Int × Option Int))
  | [], _ => Except.ok []
  | i :: rest, seen =>
    let val := form.rank i
    if val = "" then collectRanked form rest seen
    else
      let optID := goParseInt64 val
      if optID ∈ seen then Except.error "Each choice must be different"
      else (collectRanked form rest (optID :: seen)).map (fun l => (optID, some i) :: l)

/-- The selection-collection switch of handleVoteSubmit, returning the
validated (option id, rank) list or the user-facing validation
message.  An unknown vote type collects nothing, as the Go switch
does. -/
def collectSelections (cat : Category) (form : VoteForm) : Except String (List (Int × Option Int)) :=
  if cat.voteType = "single" then
    let choiceStr := form.choice.headD ""
    if choiceStr = "" then Except.error "Please make a selection"
    else Except.ok [(goParseInt64 choiceStr, none)]
  else if cat.voteType = "approval" then
    if form.choice = [] then Except.error "Please make at least one selection"
    else Except.ok (form.choice.map (fun c => (goParseInt64 c, none)))
  else if cat.voteType = "ranked" then
    match collectRanked form (rankIndices (effectiveMaxRank cat)) [] with
    | Except.error e => Except.error e
    | Except.ok [] => Except.error "Please make at least one selection"
    | Except.ok l => Except.ok l
  else Except.ok []

/-- The option ids the ranked loop parses: one per rank position with
a non-empty submitted value. -/
def parsedRankIds (form : VoteForm) (is : List Int) : List Int :=
  is.filterMap (fun i => if form.rank i = "" then none else some (goParseInt64 (form.rank i)))

/-- Injected storage failures: which step of the transaction fails.
failInsert n fails the n-th CreateVoteSelection (0-based). -/
structure FailSpec where
  failBegin : Bool
  failUpsert : Bool
  failDelete : Bool
  failInsert : Option Nat
  failCommit : Bool
deriving DecidableEq

/-- The failure-free schedule. -/
def noFail : FailSpec :=
  { failBegin := false, failUpsert := false, failDelete := false,
    failInsert := none, failCommit := false }

/-- UpsertVote: INSERT .. ON CONFLICT(category_id, nickname) DO UPDATE
SET created_at = CURRENT_TIMESTAMP RETURNING *.  The conflict branch
only refreshes the timestamp, which the model does not carry.  The
insert is subject to the votes.category_id foreign key. -/
def upsertVote (st : DBState) (cid : Int) (nick : String) : Except Unit (DBState × Vote) :=
  match findVote st cid nick with
  | some v => Except.ok (st, v)
  | none =>
    if st.categories.any (fun c => c.id == cid) then
      let v : Vote := { id := st.nextVoteId, categoryId := cid, nickname := nick }
      Except.ok ({ st with votes := st.votes ++ [v], nextVoteId := st.nextVoteId + 1 }, v)
    else Except.error ()

/-- DeleteVoteSelections: DELETE FROM vote_selections WHERE vote_id = ?. -/
def DeleteVoteSelections (st : DBState) (voteId : Int) : DBState :=
  { st with selections := st.selections.filter (fun s => !(s.voteId == voteId)) }

/-- CreateVoteSelection: INSERT INTO vote_selections, subject to the
vote_id and option_id foreign keys, which are enforced because db.Open
enables foreign keys. -/
def CreateVoteSelection (st : DBState) (voteId optionId : Int) (rank : Option Int) : Except Unit DBState :=
  if st.votes.any (fun v => v.id == voteId) && st.options.any (fun o => o.id == optionId) then
    Except.ok { st with
      selections := st.selections ++
        [{ id := st.nextSelId, voteId := voteId, optionId := optionId, rank := rank }],
      nextSelId := st.nextSelId + 1 }
  else Except.error ()

/-- The insert loop of handleVoteSubmit over the validated selections;
idx counts the inserts already issued for the injected failure. -/
def insertSelections (st : DBState) (voteId : Int) :
    List (Int × Option Int) → Option Nat → Nat → Except Unit DBState
  | [], _, _ => Except.ok st
  | (oid, r) :: rest, failAt, idx =>
    if failAt = some idx then Except.error ()
    else
      match CreateVoteSelection st voteId oid r with
      | Except.error _ => Except.error ()
      | Except.ok st1 => insertSelections st1 voteId rest failAt (idx + 1)

/-- Outcome of a ballot submission as observed by the voter. -/
inductive SubmitOutcome where
  | notFound
  | votingClosed
  | validationError (msg : String)
  | storageError (msg : String)
  | success (nickname : String)
deriving DecidableEq

/-- True exactly on the success outcome. -/
def SubmitOutcome.isSuccess : SubmitOutcome → Bool
  | SubmitOutcome.success _ => true
  | _ => false

/-- The transaction of handleVoteSubmit: Begin, UpsertVote,
DeleteVoteSelections, one CreateVoteSelection per validated selection,
Commit.  An error at any step rolls the whole transaction back (the Go
code defers tx.Rollback and returns), so the caller observes the
pre-transaction state together with the storage-error message of the
failing step. -/
def runVoteTx (st : DBState) (cid : Int) (nick : String)
    (sels : List (Int × Option Int)) (fs : FailSpec) : DBState × SubmitOutcome :=
  if fs.failBegin then (st, SubmitOutcome.storageError "Database error")
  else
    match (if fs.failUpsert then Except.error () else upsertVote st cid nick) with
    | Except.error _ => (st, SubmitOutcome.storageError "Failed to save vote")
    | Except.ok (tx1, vote) =>
      if fs.failDelete then (st, SubmitOutcome.storageError "Failed to update vote")
      else
        match insertSelections (DeleteVoteSelections tx1 vote.id) vote.id sels fs.failInsert 0 with
        | Except.error _ => (st, SubmitOutcome.storageError "Failed to save selection")
        | Except.ok tx3 =>
          if fs.failCommit then (st, SubmitOutcome.storageError "Failed to save vote")
          else (tx3, SubmitOutcome.success nick)

/-- The normalized voter identity of handleVoteSubmit: TrimSpace then
ToLower. -/
def normNick (s : String) : String :=
  goToLower (goTrimSpace s)

/-- handleVoteSubmit: trim the nickname, reject empty, lowercase it,
validate the selections per vote type, then run the storage
transaction. -/
def submitVote (st : DBState) (cat : Category) (form : VoteForm) (fs : FailSpec) :
    DBState × SubmitOutcome :=
  if goTrimSpace form.nickname = "" then (st, SubmitOutcome.validationError "Please enter a nickname")
  else
    match collectSelections cat form with
    | Except.error msg => (st, SubmitOutcome.validationError msg)
    | Except.ok sels => runVoteTx st cat.id (normNick form.nickname) sels fs

/-- handleVote on a POST: fetch the category, reject when voting is
not open, then delegate to handleVoteSubmit. -/
def handleVote (st : DBState) (id : Int) (form : VoteForm) (fs : FailSpec) :
    DBState × SubmitOutcome :=
  match GetCategory st id with
  | none => (st, SubmitOutcome.notFound)
  | some cat =>
    if cat.status ≠ "open" then (st, SubmitOutcome.votingClosed)
    else submitVote st cat form fs

/-! ## Results page -/

/-- One rendered result row of handleResults. -/
structure ResultEntry where
  name : String
  votes : Nat
  points : Int
  firstPlace : Nat
deriving DecidableEq

/-- The rendered results page. -/
inductive ResultsPage where
  | notFound
  | notVisible (cat : Category)
  | visible (cat : Category) (voteCount : Nat) (rows : List ResultEntry)
deriving DecidableEq

/-- handleResults: fetch the category, render the not-visible page
when show_results is after_close and status is not closed, otherwise
tally by vote type (ranked with the effective max rank) and render. -/
def handleResults (st : DBState) (id : Int) : ResultsPage :=
  match GetCategory st id with
  | none => ResultsPage.notFound
  | some cat =>
    if resultsNotVisible cat then ResultsPage.notVisible cat
    else
      let voteCount := CountVotesByCategory st id
      if cat.voteType == "ranked" then
        ResultsPage.visible cat voteCount
          ((TallyRanked st (effectiveMaxRank cat) id).map
            (fun r => { name := r.name, votes := 0, points := r.points,
                        firstPlace := r.firstPlaceVotes }))
      else
        ResultsPage.visible cat voteCount
          ((TallySimple st id).map
            (fun r => { name := r.name, votes := r.votes, points := 0, firstPlace := 0 }))

/-! ## Derived descriptions of the tally ordering -/

/-- The strict order on a nullable column: NULL sorts before every
value. -/
def nullLT : Option Int → Option Int → Prop
  | none, none => False
  | none, some _ => True
  | some _, none => False
  | some a, some b => a < b

/-- The sort_order stored for an option id. -/
def sortOrderOf (st : DBState) (oid : Int) : Option Int :=
  match st.options.find? (fun o => o.id == oid) with
  | some o => o.sortOrder
  | none => none

/-- The row order of TallySimple as the spec describes it: descending
by count, ties by sort order, then by option id. -/
def simpleOrder (st : DBState) (a b : SimpleRow) : Prop :=
  b.votes < a.votes ∨ (a.votes = b.votes ∧
    (nullLT (sortOrderOf st a.id) (sortOrderOf st b.id) ∨
      (sortOrderOf st a.id = sortOrderOf st b.id ∧ a.id ≤ b.id)))

/-- The row order of TallyRanked as the spec describes it: descending
by points, ties by first-place count, then sort order, then option
id. -/
def rankedOrder (st : DBState) (a b : RankedRow) : Prop :=
  b.points < a.points ∨ (a.points = b.points ∧
    (b.firstPlaceVotes < a.firstPlaceVotes ∨ (a.firstPlaceVotes = b.firstPlaceVotes ∧
      (nullLT (sortOrderOf st a.id) (sortOrderOf st b.id) ∨
        (sortOrderOf st a.id = sortOrderOf st b.id ∧ a.id ≤ b.id)))))

/-! ## Lemmas about the ORDER BY model -/

theorem keyLE_total (x y : List Int) : keyLE x y = true ∨ keyLE y x = true := by
  induction x generalizing y with
  | nil => left; rfl
  | cons a as ih =>
    cases y with
    | nil => right; rfl
    | cons b bs =>
      by_cases hab : a = b
      · subst hab
        simp only [keyLE, if_pos rfl]
        exact ih bs
      · rcases lt_trichotomy a b with h | h | h
        · left; simp [keyLE, hab, h]
        · exact absurd h hab
        · right
          have : ¬ b = a := fun hba => hab hba.symm
          simp [keyLE, this, h]

theorem keyLE_trans {x y z : List Int} (h1 : keyLE x y = true) (h2 : keyLE y z = true) :
    keyLE x z = true := by
  induction x generalizing y z with
  | nil => rfl
  | cons a as ih =>
    cases y with
    | nil => simp [keyLE] at h1
    | cons b bs =>
      cases z with
      | nil => simp [keyLE] at h2
      | cons c cs =>
        by_cases hab : a = b <;> by_cases hbc : b = c
        · subst hab; subst hbc
          simp only [keyLE, if_pos rfl] at h1 h2 ⊢
          exact ih h1 h2
        · subst hab
          simp only [keyLE, if_pos rfl, if_neg hbc, decide_eq_true_eq] at h1 h2 ⊢
          have hac : ¬ a = c := fun h => hbc h
          simp [if_neg hac, h2]
        · subst hbc
          simp only [keyLE, if_neg hab, decide_eq_true_eq] at h1 ⊢
          simp [if_neg hab, h1]
        · simp only [keyLE, if_neg hab, if_neg hbc, decide_eq_true_eq] at h1 h2
          have hac : a < c := lt_trans h1 h2
          have : ¬ a = c := ne_of_lt hac
          simp [keyLE, this, hac]

theorem keyLE_cons {a b : Int} {as bs : List Int} :
    keyLE (a :: as) (b :: bs) = true ↔ a < b ∨ (a = b ∧ keyLE as bs = true) := by
  by_cases hab : a = b
  · subst hab
    simp [keyLE, lt_irrefl]
  · simp [keyLE, hab]

theorem insertRow_perm (key : α → List Int) (a : α) (l : List α) :
    (insertRow key a l).Perm (a :: l) := by
  induction l with
  | nil => exact List.Perm.refl _
  | cons b bs ih =>
    unfold insertRow
    by_cases h : keyLE (key a) (key b) = true
    · simp only [h, if_true]
      exact List.Perm.refl _
    · simp only [h, if_false]
      exact (ih.cons b).trans (List.Perm.swap a b bs)

theorem orderBy_perm (key : α → List Int) (l : List α) : (orderBy key l).Perm l := by
  induction l with
  | nil => exact List.Perm.refl _
  | cons a as ih => exact (insertRow_perm key a (orderBy key as)).trans (ih.cons a)

theorem pairwise_insertRow (key : α → List Int) (a : α) (l : List α)
    (hl : l.Pairwise (fun x y => keyLE (key x) (key y) = true)) :
    (insertRow key a l).Pairwise (fun x y => keyLE (key x) (key y) = true) := by
  induction l with
  | nil => simp [insertRow]
  | cons b bs ih =>
    rcases List.pairwise_cons.mp hl with ⟨hb, hbs⟩
    unfold insertRow
    by_cases h : keyLE (key a) (key b) = true
    · simp only [h, if_true]
      refine List.pairwise_cons.mpr ⟨?_, hl⟩
      intro y hy
      rcases List.mem_cons.mp hy with rfl | hy
      · exact h
      · exact keyLE_trans h (hb y hy)
    · simp only [h, if_false]
      refine List.pairwise_cons.mpr ⟨?_, ih hbs⟩
      intro y hy
      rcases List.mem_cons.mp ((insertRow_perm key a bs).mem_iff.mp hy) with rfl | hy2
      · rcases keyLE_total (key y) (key b) with ht | ht
        · exact absurd ht h
        · exact ht
      · exact hb y hy2

theorem orderBy_sorted (key : α → List Int) (l : List α) :
    (orderBy key l).Pairwise (fun x y => keyLE (key x) (key y) = true) := by
  induction l with
  | nil => simp [orderBy]
  | cons a as ih => exact pairwise_insertRow key a (orderBy key as) ih

/-! ## Lemmas about category lookup and update -/

theorem find?_map_update {l : List Category} {id : Int} {c : Category} (s : String)
    (h : l.find? (fun c => c.id == id) = some c) :
    (l.map (fun c => if c.id = id then { c with status := s } else c)).find?
      (fun c => c.id == id) = some { c with status := s } := by
  induction l with
  | nil => simp at h
  | cons d ds ih =>
    by_cases hd : d.id = id
    · have hb : (d.id == id) = true := beq_iff_eq.mpr hd
      simp only [List.find?_cons, hb] at h
      injection h with h
      subst h
      simp only [List.map_cons, if_pos hd]
      have hb2 : (({ d with status := s } : Category).id == id) = true := hb
      simp only [List.find?_cons, hb2]
    · have hb : (d.id == id) = false := beq_eq_false_iff_ne.mpr hd
      simp only [List.find?_cons, hb] at h
      simp only [List.map_cons, if_neg hd, List.find?_cons, hb]
      exact ih h

theorem GetCategory_update {st : DBState} {id : Int} {c : Category} (s : String)
    (h : GetCategory st id = some c) :
    GetCategory (UpdateCategoryStatus st s id) id = some { c with status := s } :=
  find?_map_update s h

theorem GetCategory_mem {st : DBState} {id : Int} {c : Category}
    (h : GetCategory st id = some c) : c ∈ st.categories ∧ c.id = id := by
  have hm := List.find?_some h
  exact ⟨List.mem_of_find?_eq_some h, by simpa using hm⟩

/-! ## Lemmas about filtered counts -/

theorem length_filter_or (p q : α → Bool) (xs : List α)
    (hdisj : ∀ x ∈ xs, ¬(p x = true ∧ q x = true)) :
    (xs.filter (fun x => p x || q x)).length
      = (xs.filter p).length + (xs.filter q).length := by
  induction xs with
  | nil => rfl
  | cons x xs ih =>
    have hx := hdisj x (List.mem_cons_self x xs)
    have ih2 := ih (fun y hy => hdisj y (List.mem_cons_of_mem x hy))
    by_cases hp : p x = true <;> by_cases hq : q x = true
    · exact absurd ⟨hp, hq⟩ hx
    · simp only [List.filter_cons, hp, hq, Bool.true_or, if_true]
      simp [ih2]
      omega
    · simp only [List.filter_cons, hp, hq, Bool.or_true]
      simp [ih2]
      omega
    · simp only [List.filter_cons, hp, hq, Bool.or_self]
      simp [hp, hq, ih2]

theorem sum_counts (f : α → Int) (keys : List Int) (xs : List α) (hnd : keys.Nodup) :
    (keys.map (fun k => (xs.filter (fun x => f x == k)).length)).sum
      = (xs.filter (fun x => decide (f x ∈ keys))).length := by
  induction keys with
  | nil => simp
  | cons k ks ih =>
    rcases List.nodup_cons.mp hnd with ⟨hk, hks⟩
    simp only [List.map_cons, List.sum_cons, ih hks]
    rw [← length_filter_or (fun x => f x == k) (fun x => decide (f x ∈ ks)) xs ?hdisj]
    case hdisj =>
      rintro x _ ⟨h1, h2⟩
      rw [beq_iff_eq] at h1
      rw [decide_eq_true_eq] at h2
      rw [h1] at h2
      exact hk h2
    congr 1
    apply List.filter_congr
    intro x _
    by_cases h1 : f x = k <;> simp [h1, List.mem_cons]

/-! ## Lemmas about option lookup by id -/

theorem find?_id_self {l : List OptionRow} {o : OptionRow}
    (hnd : (l.map (fun o => o.id)).Nodup) (ho : o ∈ l) :
    l.find? (fun x => x.id == o.id) = some o := by
  induction l with
  | nil => cases ho
  | cons d ds ih =>
    rw [List.map_cons, List.nodup_cons] at hnd
    rcases hnd with ⟨hd, hds⟩
    rcases List.mem_cons.mp ho with rfl | ho2
    · simp [List.find?_cons]
    · have hne : (d.id == o.id) = false := by
        rw [beq_eq_false_iff_ne]
        intro he
        exact hd (he ▸ List.mem_map_of_mem (fun o => o.id) ho2)
      simp only [List.find?_cons, hne]
      exact ih hds ho2

theorem sortOrderOf_mem {st : DBState} {o : OptionRow}
    (hnd : (st.options.map (fun o => o.id)).Nodup) (ho : o ∈ st.options) :
    sortOrderOf st o.id = o.sortOrder := by
  unfold sortOrderOf
  rw [find?_id_self hnd ho]

/-! ## Decomposing the tally keys -/

theorem keyLE_nilLE : keyLE [] [] = true := rfl

theorem keyLE_nullKey {x y : Option Int} {a b : Int} :
    keyLE (nullKey x ++ [a]) (nullKey y ++ [b]) = true ↔
      nullLT x y ∨ (x = y ∧ a ≤ b) := by
  cases x <;> cases y <;>
    simp [nullKey, nullLT, keyLE_cons, keyLE_nilLE] <;> omega

theorem simpleKey_le_iff {sels : List VoteSelection} {a b : OptionRow} :
    keyLE (simpleKey sels a) (simpleKey sels b) = true ↔
      selCount sels b.id < selCount sels a.id ∨
        (selCount sels a.id = selCount sels b.id ∧
          (nullLT a.sortOrder b.sortOrder ∨ (a.sortOrder = b.sortOrder ∧ a.id ≤ b.id))) := by
  show keyLE ((-(selCount sels a.id : Int)) :: (nullKey a.sortOrder ++ [a.id]))
      ((-(selCount sels b.id : Int)) :: (nullKey b.sortOrder ++ [b.id])) = true ↔ _
  rw [keyLE_cons, keyLE_nullKey]
  constructor
  · rintro (h | ⟨h1, h2⟩)
    · left; omega
    · right; exact ⟨by omega, h2⟩
  · rintro (h | ⟨h1, h2⟩)
    · left; omega
    · right; exact ⟨by omega, h2⟩

/-! ## Lemmas about the ballot transaction -/

theorem CreateVoteSelection_ok {st st1 : DBState} {vid oid : Int} {r : Option Int}
    (h : CreateVoteSelection st vid oid r = Except.ok st1) :
    st1 = { st with
      selections := st.selections ++
        [{ id := st.nextSelId, voteId := vid, optionId := oid, rank := r }],
      nextSelId := st.nextSelId + 1 } := by
  unfold CreateVoteSelection at h
  by_cases hc : (st.votes.any (fun v => v.id == vid) &&
      st.options.any (fun o => o.id == oid)) = true
  · rw [if_pos hc] at h
    injection h with h
    exact h.symm
  · rw [if_neg hc] at h
    cases h

theorem insertSelections_ok {vid : Int} {sels : List (Int × Option Int)}
    {failAt : Option Nat} {st st' : DBState} {idx : Nat}
    (h : insertSelections st vid sels failAt idx = Except.ok st') :
    st'.categories = st.categories ∧ st'.options = st.options ∧ st'.votes = st.votes ∧
      st'.nextVoteId = st.nextVoteId ∧
      ∃ news, st'.selections = st.selections ++ news ∧
        news.map (fun s => (s.optionId, s.rank)) = sels ∧
        ∀ s ∈ news, s.voteId = vid := by
  induction sels generalizing st idx with
  | nil =>
    unfold insertSelections at h
    injection h with h
    subst h
    exact ⟨rfl, rfl, rfl, rfl, [], by simp, rfl, by simp⟩
  | cons p rest ih =>
    obtain ⟨oid, r⟩ := p
    unfold insertSelections at h
    by_cases hf : failAt = some idx
    · rw [if_pos hf] at h; cases h
    · rw [if_neg hf] at h
      cases hins : CreateVoteSelection st vid oid r with
      | error e => rw [hins] at h; cases h
      | ok st1 =>
        rw [hins] at h
        have h1 := CreateVoteSelection_ok hins
        obtain ⟨hc, ho, hv, hn, news, hsel, hmap, hvid⟩ := ih h
        subst h1
        refine ⟨hc, ho, hv, hn,
          { id := st.nextSelId, voteId := vid, optionId := oid, rank := r } :: news,
          ?_, ?_, ?_⟩
        · simpa using hsel
        · simpa using hmap
        · intro s hs
          rcases List.mem_cons.mp hs with rfl | hs2
          · rfl
          · exact hvid s hs2

theorem upsertVote_ok {st stU : DBState} {cid : Int} {nick : String} {v : Vote}
    (h : upsertVote st cid nick = Except.ok (stU, v)) :
    (findVote st cid nick = some v ∧ stU = st) ∨
      (findVote st cid nick = none ∧
        v = { id := st.nextVoteId, categoryId := cid, nickname := nick } ∧
        stU = { st with votes := st.votes ++ [v], nextVoteId := st.nextVoteId + 1 }) := by
  unfold upsertVote at h
  cases hf : findVote st cid nick with
  | some w =>
    rw [hf] at h
    injection h with h
    left
    have h1 : st = stU := congrArg Prod.fst h
    have h2 : w = v := congrArg Prod.snd h
    exact ⟨by rw [h2], h1.symm⟩
  | none =>
    rw [hf] at h
    by_cases hc : (st.categories.any (fun c => c.id == cid)) = true
    · rw [if_pos hc] at h
      injection h with h
      right
      have h2 : ({ id := st.nextVoteId, categoryId := cid, nickname := nick } : Vote) = v :=
        congrArg Prod.snd h
      subst h2
      have h1 := congrArg Prod.fst h
      exact ⟨rfl, rfl, h1.symm⟩
    · rw [if_neg hc] at h
      cases h

theorem upsertVote_categories {st stU : DBState} {cid : Int} {nick : String} {v : Vote}
    (h : upsertVote st cid nick = Except.ok (stU, v)) :
    stU.categories = st.categories ∧ stU.options = st.options ∧
      stU.selections = st.selections ∧ stU.nextSelId = st.nextSelId := by
  rcases upsertVote_ok h with ⟨_, rfl⟩ | ⟨_, _, rfl⟩ <;> exact ⟨rfl, rfl, rfl, rfl⟩

theorem runVoteTx_fail {st : DBState} {cid : Int} {nick : String}
    {sels : List (Int × Option Int)} {fs : FailSpec}
    (h : ((runVoteTx st cid nick sels fs).2).isSuccess = false) :
    (runVoteTx st cid nick sels fs).1 = st := by
  unfold runVoteTx at h ⊢
  by_cases hb : fs.failBegin
  · simp [hb]
  · simp only [hb, if_false] at h ⊢
    cases hup : (if fs.failUpsert then Except.error () else upsertVote st cid nick) with
    | error e => simp [hup]
    | ok pr =>
      obtain ⟨tx1, vote⟩ := pr
      simp only [hup] at h ⊢
      by_cases hd : fs.failDelete
      · simp [hd]
      · simp only [hd, if_false] at h ⊢
        cases hins : insertSelections (DeleteVoteSelections tx1 vote.id) vote.id sels
            fs.failInsert 0 with
        | error e => simp [hins]
        | ok tx3 =>
          simp only [hins] at h ⊢
          by_cases hc : fs.failCommit
          · simp [hc]
          · simp [hc, SubmitOutcome.isSuccess] at h

theorem runVoteTx_success {st st' : DBState} {cid : Int} {nick n : String}
    {sels : List (Int × Option Int)}
    (h : runVoteTx st cid nick sels noFail = (st', SubmitOutcome.success n)) :
    n = nick ∧ ∃ stU v, upsertVote st cid nick = Except.ok (stU, v) ∧
      insertSelections (DeleteVoteSelections stU v.id) v.id sels none 0 = Except.ok st' := by
  unfold runVoteTx noFail at h
  simp only [Bool.false_eq_true, if_false] at h
  cases hup : upsertVote st cid nick with
  | error e => rw [hup] at h; simp at h
  | ok pr =>
    obtain ⟨stU, v⟩ := pr
    rw [hup] at h
    simp only at h
    cases hins : insertSelections (DeleteVoteSelections stU v.id) v.id sels none 0 with
    | error e => rw [hins] at h; simp at h
    | ok tx3 =>
      rw [hins] at h
      simp only at h
      have h1 := congrArg Prod.fst h
      have h2 := congrArg Prod.snd h
      simp only at h1 h2
      injection h2 with h2
      exact ⟨h2.symm, stU, v, rfl, h1 ▸ hins⟩

theorem submitVote_success {st st' : DBState} {cat : Category} {form : VoteForm}
    {fs : FailSpec} {n : String}
    (h : submitVote st cat form fs = (st', SubmitOutcome.success n)) :
    goTrimSpace form.nickname ≠ "" ∧ ∃ sels, collectSelections cat form = Except.ok sels ∧
      runVoteTx st cat.id (normNick form.nickname) sels fs = (st', SubmitOutcome.success n) := by
  unfold submitVote at h
  by_cases hn : goTrimSpace form.nickname = ""
  · rw [if_pos hn] at h
    have := congrArg Prod.snd h
    simp at this
  · rw [if_neg hn] at h
    cases hc : collectSelections cat form with
    | error msg =>
      rw [hc] at h
      have := congrArg Prod.snd h
      simp at this
    | ok sels =>
      rw [hc] at h
      exact ⟨hn, sels, rfl, h⟩

theorem handleVote_success {st st' : DBState} {cid : Int} {form : VoteForm}
    {fs : FailSpec} {n : String}
    (h : handleVote st cid form fs = (st', SubmitOutcome.success n)) :
    ∃ cat, GetCategory st cid = some cat ∧ cat.status = "open" ∧
      submitVote st cat form fs = (st', SubmitOutcome.success n) := by
  unfold handleVote at h
  cases hg : GetCategory st cid with
  | none =>
    rw [hg] at h
    have := congrArg Prod.snd h
    simp at this
  | some cat =>
    rw [hg] at h
    have h2 : (if cat.status ≠ "open" then (st, SubmitOutcome.votingClosed)
        else submitVote st cat form fs) = (st', SubmitOutcome.success n) := h
    by_cases hs : cat.status ≠ "open"
    · rw [if_pos hs] at h2
      have := congrArg Prod.snd h2
      simp at this
    · rw [if_neg hs] at h2
      push_neg at hs
      exact ⟨cat, rfl, hs, h2⟩

/-! ## Lemmas about the ranked collection loop -/

theorem parsedRankIds_mem {form : VoteForm} {is : List Int} {i : Int}
    (hi : i ∈ is) (hv : form.rank i ≠ "") :
    goParseInt64 (form.rank i) ∈ parsedRankIds form is := by
  unfold parsedRankIds
  exact List.mem_filterMap.mpr ⟨i, hi, by simp [hv]⟩

theorem collectRanked_dup {form : VoteForm} (is : List Int) (seen : List Int)
    (h : ¬ (parsedRankIds form is).Nodup ∨ ∃ x ∈ parsedRankIds form is, x ∈ seen) :
    collectRanked form is seen = Except.error "Each choice must be different" := by
  induction is generalizing seen with
  | nil => simp [parsedRankIds] at h
  | cons i rest ih =>
    show (if form.rank i = "" then collectRanked form rest seen else _) = _
    by_cases hv : form.rank i = ""
    · rw [if_pos hv]
      apply ih
      simpa [parsedRankIds, hv] using h
    · rw [if_neg hv]
      have hparsed : parsedRankIds form (i :: rest)
          = goParseInt64 (form.rank i) :: parsedRankIds form rest := by
        simp [parsedRankIds, hv]
      by_cases hs : goParseInt64 (form.rank i) ∈ seen
      · rw [if_pos hs]
      · rw [if_neg hs]
        have hrec : collectRanked form rest (goParseInt64 (form.rank i) :: seen)
            = Except.error "Each choice must be different" := by
          apply ih
          rw [hparsed] at h
          rcases h with h | ⟨x, hx, hxseen⟩
          · rw [List.nodup_cons] at h
            push_neg at h
            by_cases hmem : goParseInt64 (form.rank i) ∈ parsedRankIds form rest
            · right
              exact ⟨goParseInt64 (form.rank i), hmem, List.mem_cons_self _ _⟩
            · left
              exact h hmem
          · rcases List.mem_cons.mp hx with rfl | hx2
            · exact absurd hxseen hs
            · right
              exact ⟨x, hx2, List.mem_cons_of_mem _ hxseen⟩
        rw [hrec]
        rfl

theorem parsedRankIds_not_nodup {form : VoteForm} {is : List Int} {i j : Int}
    (hi : i ∈ is) (hj : j ∈ is) (hij : i ≠ j)
    (hvi : form.rank i ≠ "") (hvj : form.rank j ≠ "")
    (heq : goParseInt64 (form.rank i) = goParseInt64 (form.rank j)) :
    ¬ (parsedRankIds form is).Nodup := by
  induction is with
  | nil => cases hi
  | cons k rest ih =>
    intro hnd
    by_cases hvk : form.rank k = ""
    · have hnd2 : (parsedRankIds form rest).Nodup := by
        simpa [parsedRankIds, hvk] using hnd
      have hik : i ≠ k := fun he => hvi (he ▸ hvk)
      have hjk : j ≠ k := fun he => hvj (he ▸ hvk)
      have hi2 : i ∈ rest := (List.mem_cons.mp hi).resolve_left hik
      have hj2 : j ∈ rest := (List.mem_cons.mp hj).resolve_left hjk
      exact ih hi2 hj2 hnd2
    · have hparsed : parsedRankIds form (k :: rest)
          = goParseInt64 (form.rank k) :: parsedRankIds form rest := by
        simp [parsedRankIds, hvk]
      rw [hparsed, List.nodup_cons] at hnd
      rcases hnd with ⟨hkn, hnd2⟩
      rcases List.mem_cons.mp hi with rfl | hi2 <;> rcases List.mem_cons.mp hj with rfl | hj2
      · exact hij rfl
      · apply hkn
        rw [heq]
        exact parsedRankIds_mem hj2 hvj
      · apply hkn
        rw [← heq]
        exact parsedRankIds_mem hi2 hvi
      · exact ih hi2 hj2 hnd2

/-! ## Lemmas about selections filtering -/

theorem filter_delete_append {xs news : List VoteSelection} {vid : Int}
    (hnews : ∀ s ∈ news, s.voteId = vid) :
    ((xs.filter (fun s => !(s.voteId == vid))) ++ news).filter
      (fun s => s.voteId == vid) = news := by
  rw [List.filter_append]
  have h1 : (xs.filter (fun s => !(s.voteId == vid))).filter
      (fun s => s.voteId == vid) = [] := by
    rw [List.filter_eq_nil_iff]
    intro s hs
    have h2 := (List.mem_filter.mp hs).2
    simp only [Bool.not_eq_true'] at h2
    simp [h2]
  have h2 : news.filter (fun s => s.voteId == vid) = news := by
    rw [List.filter_eq_self]
    intro s hs
    exact beq_iff_eq.mpr (hnews s hs)
  rw [h1, h2]
  rfl

theorem find?_append_none {l1 l2 : List α} {p : α → Bool}
    (h : l1.find? p = none) : (l1 ++ l2).find? p = l2.find? p := by
  rw [List.find?_append, h]
  rfl

/-! ## Classification of the transaction outcome -/

theorem runVoteTx_cases (st : DBState) (cid : Int) (nick : String)
    (sels : List (Int × Option Int)) (fs : FailSpec) :
    (runVoteTx st cid nick sels fs).2 = SubmitOutcome.success nick ∨
      ∃ m, (runVoteTx st cid nick sels fs).2 = SubmitOutcome.storageError m := by
  unfold runVoteTx
  by_cases hb : fs.failBegin
  · simp [hb]
  · simp only [hb, if_false]
    cases hup : (if fs.failUpsert then Except.error () else upsertVote st cid nick) with
    | error e => simp
    | ok pr =>
      obtain ⟨tx1, vote⟩ := pr
      by_cases hd : fs.failDelete
      · simp [hd]
      · simp only [hd, if_false]
        cases hins : insertSelections (DeleteVoteSelections tx1 vote.id) vote.id sels
            fs.failInsert 0 with
        | error e => simp
        | ok tx3 =>
          by_cases hc : fs.failCommit
          · simp [hc]
          · simp [hc]

theorem submitVote_validation_indep {st : DBState} {cat : Category} {form : VoteForm}
    {fs : FailSpec} {msg : String}
    (h : (submitVote st cat form fs).2 = SubmitOutcome.validationError msg) :
    ∀ fs2, submitVote st cat form fs2 = (st, SubmitOutcome.validationError msg) := by
  intro fs2
  unfold submitVote at h ⊢
  by_cases hn : goTrimSpace form.nickname = ""
  · rw [if_pos hn] at h ⊢
    simp only at h
    rw [h]
  · rw [if_neg hn] at h ⊢
    cases hc : collectSelections cat form with
    | error m =>
      rw [hc] at h
      have h2 : SubmitOutcome.validationError m = SubmitOutcome.validationError msg := h
      injection h2 with h2
      subst h2
      rfl
    | ok sels =>
      rw [hc] at h
      have h2 : (runVoteTx st cat.id (normNick form.nickname) sels fs).2
          = SubmitOutcome.validationError msg := h
      rcases runVoteTx_cases st cat.id (normNick form.nickname) sels fs with h3 | ⟨m, h3⟩
      · rw [h2] at h3; cases h3
      · rw [h2] at h3; cases h3

theorem submitVote_fail {st : DBState} {cat : Category} {form : VoteForm} {fs : FailSpec}
    (h : ((submitVote st cat form fs).2).isSuccess = false) :
    (submitVote st cat form fs).1 = st := by
  unfold submitVote at h ⊢
  by_cases hn : goTrimSpace form.nickname = ""
  · rw [if_pos hn]
  · rw [if_neg hn] at h ⊢
    cases hc : collectSelections cat form with
    | error msg => rfl
    | ok sels =>
      rw [hc] at h
      have h2 : ((runVoteTx st cat.id (normNick form.nickname) sels fs).2).isSuccess = false := h
      show (runVoteTx st cat.id (normNick form.nickname) sels fs).1 = st
      exact runVoteTx_fail h2

theorem handleVote_fail {st : DBState} {cid : Int} {form : VoteForm} {fs : FailSpec}
    (h : ((handleVote st cid form fs).2).isSuccess = false) :
    (handleVote st cid form fs).1 = st := by
  unfold handleVote at h ⊢
  cases hg : GetCategory st cid with
  | none => rfl
  | some cat =>
    rw [hg] at h
    show (if cat.status ≠ "open" then (st, SubmitOutcome.votingClosed)
        else submitVote st cat form fs).1 = st
    by_cases hs : cat.status ≠ "open"
    · rw [if_pos hs]
    · rw [if_neg hs]
      rw [show (match some cat with
          | none => (st, SubmitOutcome.notFound)
          | some cat => if cat.status ≠ "open" then (st, SubmitOutcome.votingClosed)
              else submitVote st cat form fs)
          = (if cat.status ≠ "open" then (st, SubmitOutcome.votingClosed)
              else submitVote st cat form fs) from rfl, if_neg hs] at h
      exact submitVote_fail h

/-! ## Lemmas about vote lookup and counting -/

theorem findVote_none {st : DBState} {cid : Int} {nick : String}
    (h : findVote st cid nick = none) :
    ∀ v ∈ st.votes, ¬(v.categoryId = cid ∧ v.nickname = nick) := by
  intro v hv hcon
  have := List.find?_eq_none.mp h v hv
  simp only [Bool.and_eq_true, beq_iff_eq] at this
  exact this ⟨hcon.1, hcon.2⟩

theorem filter_pair_nil {votes : List Vote} {cid : Int} {nick : String}
    (h : ∀ v ∈ votes, ¬(v.categoryId = cid ∧ v.nickname = nick)) :
    votes.filter (fun v => v.categoryId == cid && v.nickname == nick) = [] := by
  rw [List.filter_eq_nil_iff]
  intro v hv
  simp only [Bool.and_eq_true, beq_iff_eq, not_and]
  intro h1 h2
  exact h v hv ⟨h1, h2⟩

theorem count_pair_one {votes : List Vote} {cid : Int} {nick : String} {v : Vote}
    (hnd : (votes.map (fun v => (v.categoryId, v.nickname))).Nodup)
    (hf : votes.find? (fun v => v.categoryId == cid && v.nickname == nick) = some v) :
    (votes.filter (fun v => v.categoryId == cid && v.nickname == nick)).length = 1 := by
  induction votes with
  | nil => simp at hf
  | cons w ws ih =>
    rw [List.map_cons, List.nodup_cons] at hnd
    rcases hnd with ⟨hw, hws⟩
    cases hp : (w.categoryId == cid && w.nickname == nick) with
    | true =>
      simp only [List.filter_cons, hp, if_true]
      have hrest : ws.filter (fun v => v.categoryId == cid && v.nickname == nick) = [] := by
        apply filter_pair_nil
        intro u hu hcon
        apply hw
        simp only [Bool.and_eq_true, beq_iff_eq] at hp
        rw [hp.1, hp.2, ← hcon.1, ← hcon.2]
        exact List.mem_map_of_mem (fun v => (v.categoryId, v.nickname)) hu
      simp [hrest]
    | false =>
      simp only [List.find?_cons, hp] at hf
      simp only [List.filter_cons, hp]
      exact ih hws hf

theorem rankedKey_le_iff {sels : List VoteSelection} {m : Int} {a b : OptionRow} :
    keyLE (rankedKey sels m a) (rankedKey sels m b) = true ↔
      rankedPoints sels m b.id < rankedPoints sels m a.id ∨
        (rankedPoints sels m a.id = rankedPoints sels m b.id ∧
          (firstPlace sels b.id < firstPlace sels a.id ∨
            (firstPlace sels a.id = firstPlace sels b.id ∧
              (nullLT a.sortOrder b.sortOrder ∨
                (a.sortOrder = b.sortOrder ∧ a.id ≤ b.id))))) := by
  show keyLE ((-(rankedPoints sels m a.id)) :: (-(firstPlace sels a.id : Int)) ::
        (nullKey a.sortOrder ++ [a.id]))
      ((-(rankedPoints sels m b.id)) :: (-(firstPlace sels b.id : Int)) ::
        (nullKey b.sortOrder ++ [b.id])) = true ↔ _
  rw [keyLE_cons, keyLE_cons, keyLE_nullKey]
  constructor
  · rintro (h | ⟨h1, h | ⟨h2, h3⟩⟩)
    · left; omega
    · right; exact ⟨by omega, Or.inl (by omega)⟩
    · right; exact ⟨by omega, Or.inr ⟨by omega, h3⟩⟩
  · rintro (h | ⟨h1, h | ⟨h2, h3⟩⟩)
    · left; omega
    · right; exact ⟨by omega, Or.inl (by omega)⟩
    · right; exact ⟨by omega, Or.inr ⟨by omega, h3⟩⟩

/-! ## Reduction helpers for the page handlers -/

theorem resultsNotVisible_iff {cat : Category} :
    resultsNotVisible cat = true ↔
      cat.showResults = "after_close" ∧ cat.status ≠ "closed" := by
  simp [resultsNotVisible]

theorem handleResults_some {st : DBState} {id : Int} {cat : Category}
    (hc : GetCategory st id = some cat) :
    handleResults st id =
      if resultsNotVisible cat then ResultsPage.notVisible cat
      else if cat.voteType == "ranked" then
        ResultsPage.visible cat (CountVotesByCategory st id)
          ((TallyRanked st (effectiveMaxRank cat) id).map
            (fun r => { name := r.name, votes := 0, points := r.points,
                        firstPlace := r.firstPlaceVotes }))
      else
        ResultsPage.visible cat (CountVotesByCategory st id)
          ((TallySimple st id).map
            (fun r => { name := r.name, votes := r.votes, points := 0, firstPlace := 0 })) := by
  unfold handleResults
  rw [hc]

theorem mem_ListCategoriesWithResults {st : DBState} {c : Category} :
    c ∈ ListCategoriesWithResults st ↔ c ∈ st.categories ∧
      ((c.showResults = "live" ∧ c.status = "open") ∨
        (c.showResults = "after_close" ∧ c.status = "closed")) := by
  unfold ListCategoriesWithResults
  rw [(orderBy_perm _ _).mem_iff, List.mem_filter]
  simp

theorem handleVote_some {st : DBState} {id : Int} {cat : Category}
    (form : VoteForm) (fs : FailSpec) (hc : GetCategory st id = some cat) :
    handleVote st id form fs =
      if cat.status ≠ "open" then (st, SubmitOutcome.votingClosed)
      else submitVote st cat form fs := by
  unfold handleVote
  rw [hc]

/-! # The claims -/

/-- C1, counterexample: a category that is already open (status not in
draft or closed) with one option; both open call sites succeed anyway,
so open does not require status in draft or closed. -/
theorem C1_counterexample :
    (GetCategory ⟨[⟨1, "Best Costume", "single", "open", "live", none⟩],
        [⟨1, 1, "A", some 0⟩], [], [], 1, 1⟩ 1).map (fun c => c.status) = some "open" ∧
    ("open" ∈ (["draft", "closed"] : List String) → False) ∧
    (handleAdminOpen ⟨[⟨1, "Best Costume", "single", "open", "live", none⟩],
        [⟨1, 1, "A", some 0⟩], [], [], 1, 1⟩ 1).2 = LifecycleResult.ok ∧
    (openCmdRun ⟨[⟨1, "Best Costume", "single", "open", "live", none⟩],
        [⟨1, 1, "A", some 0⟩], [], [], 1, 1⟩ 1).2 = LifecycleResult.ok := by
  refine ⟨rfl, by decide, rfl, rfl⟩

/-- C1, amended: for every existing category, open succeeds iff the
option count is at least 1 — the current status is never consulted;
with zero options both call sites fail with the needs-options error
and leave the stored category unchanged, and with at least one option
both set the status to open. -/
theorem C1_open_iff_has_options (st : DBState) (id : Int) (c : Category)
    (hc : GetCategory st id = some c) :
    ((handleAdminOpen st id).2 = LifecycleResult.ok ↔ 1 ≤ CountOptionsByCategory st id) ∧
    (CountOptionsByCategory st id = 0 →
      handleAdminOpen st id = (st, LifecycleResult.needsOptions) ∧
      openCmdRun st id = (st, LifecycleResult.needsOptions)) ∧
    (1 ≤ CountOptionsByCategory st id →
      (handleAdminOpen st id).2 = LifecycleResult.ok ∧
      (openCmdRun st id).2 = LifecycleResult.ok ∧
      GetCategory (handleAdminOpen st id).1 id = some { c with status := "open" } ∧
      (openCmdRun st id).1 = (handleAdminOpen st id).1) := by
  have hcmd : openCmdRun st id =
      (if CountOptionsByCategory st id = 0 then (st, LifecycleResult.needsOptions)
        else (UpdateCategoryStatus st "open" id, LifecycleResult.ok)) := by
    unfold openCmdRun
    rw [hc]
  unfold handleAdminOpen
  by_cases h0 : CountOptionsByCategory st id = 0
  · rw [if_pos h0]
    rw [if_pos h0] at hcmd
    refine ⟨?_, fun _ => ⟨rfl, hcmd⟩, fun h1 => absurd h0 (by omega)⟩
    constructor
    · intro h; cases h
    · intro h; omega
  · rw [if_neg h0]
    rw [if_neg h0] at hcmd
    refine ⟨?_, fun h => absurd h h0, fun _ => ⟨rfl, ?_, ?_, ?_⟩⟩
    · constructor
      · intro _; omega
      · intro _; rfl
    · rw [hcmd]
    · exact GetCategory_update "open" hc
    · rw [hcmd]

/-- C1 witness: the amended theorem applied to a concrete draft
category with one option. -/
theorem C1_witness :
    GetCategory ⟨[⟨1, "Best Costume", "single", "draft", "live", none⟩],
        [⟨1, 1, "A", some 0⟩], [], [], 1, 1⟩ 1
      = some ⟨1, "Best Costume", "single", "draft", "live", none⟩ ∧
    ((handleAdminOpen ⟨[⟨1, "Best Costume", "single", "draft", "live", none⟩],
          [⟨1, 1, "A", some 0⟩], [], [], 1, 1⟩ 1).2 = LifecycleResult.ok ↔
        1 ≤ CountOptionsByCategory ⟨[⟨1, "Best Costume", "single", "draft", "live", none⟩],
          [⟨1, 1, "A", some 0⟩], [], [], 1, 1⟩ 1) :=
  ⟨rfl, (C1_open_iff_has_options
    ⟨[⟨1, "Best Costume", "single", "draft", "live", none⟩],
      [⟨1, 1, "A", some 0⟩], [], [], 1, 1⟩ 1
    ⟨1, "Best Costume", "single", "draft", "live", none⟩ rfl).1⟩

/-- C4, counterexample: close on a category whose status is draft
(not open) succeeds and stores status closed, so the draft-to-closed
transition is performed rather than rejected. -/
theorem C4_counterexample :
    (GetCategory ⟨[⟨1, "Draft Poll", "single", "draft", "live", none⟩],
        [], [], [], 1, 1⟩ 1).map (fun c => c.status) = some "draft" ∧
    (handleAdminClose ⟨[⟨1, "Draft Poll", "single", "draft", "live", none⟩],
        [], [], [], 1, 1⟩ 1).2 = LifecycleResult.ok ∧
    GetCategory (handleAdminClose ⟨[⟨1, "Draft Poll", "single", "draft", "live", none⟩],
        [], [], [], 1, 1⟩ 1).1 1
      = some ⟨1, "Draft Poll", "single", "closed", "live", none⟩ :=
  ⟨rfl, rfl, rfl⟩

/-- C4, amended: the status-update operations never inspect the
current status.  For every existing category, regardless of its
status: close (web handler and CLI) succeeds and stores closed,
ArchiveCategory stores archived, and open with at least one option
stores open.  No invalid-transition error exists. -/
theorem C4_transitions_unguarded (st : DBState) (id : Int) (c : Category)
    (hc : GetCategory st id = some c) :
    (handleAdminClose st id).2 = LifecycleResult.ok ∧
    GetCategory (handleAdminClose st id).1 id = some { c with status := "closed" } ∧
    (closeCmdRun st id).2 = LifecycleResult.ok ∧
    GetCategory (closeCmdRun st id).1 id = some { c with status := "closed" } ∧
    GetCategory (ArchiveCategory st id) id = some { c with status := "archived" } ∧
    (1 ≤ CountOptionsByCategory st id →
      GetCategory (handleAdminOpen st id).1 id = some { c with status := "open" }) := by
  have hcmd : closeCmdRun st id = (UpdateCategoryStatus st "closed" id, LifecycleResult.ok) := by
    unfold closeCmdRun
    rw [hc]
  refine ⟨rfl, GetCategory_update "closed" hc, ?_, ?_, GetCategory_update "archived" hc, ?_⟩
  · rw [hcmd]
  · rw [hcmd]
    exact GetCategory_update "closed" hc
  · intro h1
    unfold handleAdminOpen
    rw [if_neg (by omega)]
    exact GetCategory_update "open" hc

/-- C4 witness: the amended theorem applied to a concrete draft
category with one option. -/
theorem C4_witness :
    GetCategory ⟨[⟨7, "Poll", "single", "draft", "live", none⟩],
        [⟨1, 7, "A", some 0⟩], [], [], 1, 1⟩ 7
      = some ⟨7, "Poll", "single", "draft", "live", none⟩ ∧
    GetCategory (handleAdminClose ⟨[⟨7, "Poll", "single", "draft", "live", none⟩],
        [⟨1, 7, "A", some 0⟩], [], [], 1, 1⟩ 7).1 7
      = some ⟨7, "Poll", "single", "closed", "live", none⟩ :=
  ⟨rfl, (C4_transitions_unguarded
    ⟨[⟨7, "Poll", "single", "draft", "live", none⟩], [⟨1, 7, "A", some 0⟩], [], [], 1, 1⟩ 7
    ⟨7, "Poll", "single", "draft", "live", none⟩ rfl).2.1⟩

/-- C3, counterexample: a live category in status draft renders the
tally (the claim requires not-visible there), and an after_close
category in status archived renders the not-visible page (the claim
requires the tally there). -/
theorem C3_counterexample :
    (∃ n rows, handleResults ⟨[⟨1, "a", "single", "draft", "live", none⟩],
        [], [], [], 1, 1⟩ 1
      = ResultsPage.visible ⟨1, "a", "single", "draft", "live", none⟩ n rows) ∧
    handleResults ⟨[⟨2, "b", "single", "archived", "after_close", none⟩],
        [], [], [], 1, 1⟩ 2
      = ResultsPage.notVisible ⟨2, "b", "single", "archived", "after_close", none⟩ :=
  ⟨⟨0, [], rfl⟩, rfl⟩

/-- C3, amended: the per-category results request reports not-visible
exactly when show_results is after_close and status is not closed
(so an archived after_close category is not visible), and otherwise —
in particular for show_results live under every status, draft
included — it renders the tally; the results list query selects
exactly the categories with (live and open) or (after_close and
closed). -/
theorem C3_visibility (st : DBState) (id : Int) (cat : Category)
    (hc : GetCategory st id = some cat) :
    ((∃ c, handleResults st id = ResultsPage.notVisible c) ↔
      (cat.showResults = "after_close" ∧ cat.status ≠ "closed")) ∧
    (¬(cat.showResults = "after_close" ∧ cat.status ≠ "closed") →
      ∃ n rows, handleResults st id = ResultsPage.visible cat n rows) ∧
    (∀ c, c ∈ ListCategoriesWithResults st ↔ c ∈ st.categories ∧
      ((c.showResults = "live" ∧ c.status = "open") ∨
        (c.showResults = "after_close" ∧ c.status = "closed"))) := by
  rw [handleResults_some hc]
  refine ⟨?_, ?_, fun c => mem_ListCategoriesWithResults⟩
  · by_cases hv : resultsNotVisible cat = true
    · rw [if_pos hv]
      exact ⟨fun _ => resultsNotVisible_iff.mp hv, fun _ => ⟨cat, rfl⟩⟩
    · rw [if_neg hv]
      constructor
      · rintro ⟨c, hcc⟩
        by_cases hr : (cat.voteType == "ranked") = true
        · rw [if_pos hr] at hcc; cases hcc
        · rw [if_neg hr] at hcc; cases hcc
      · intro hcon
        exact absurd (resultsNotVisible_iff.mpr hcon) hv
  · intro hcon
    have hv : resultsNotVisible cat ≠ true := fun hh => hcon (resultsNotVisible_iff.mp hh)
    rw [if_neg hv]
    by_cases hr : (cat.voteType == "ranked") = true
    · rw [if_pos hr]; exact ⟨_, _, rfl⟩
    · rw [if_neg hr]; exact ⟨_, _, rfl⟩

/-- C3 witness: the amended theorem applied to a live open category. -/
theorem C3_witness :
    GetCategory ⟨[⟨1, "p", "single", "open", "live", none⟩], [], [], [], 1, 1⟩ 1
      = some ⟨1, "p", "single", "open", "live", none⟩ ∧
    ((∃ c, handleResults ⟨[⟨1, "p", "single", "open", "live", none⟩], [], [], [], 1, 1⟩ 1
        = ResultsPage.notVisible c) ↔
      (("live" : String) = "after_close" ∧ ("open" : String) ≠ "closed")) :=
  ⟨rfl, (C3_visibility ⟨[⟨1, "p", "single", "open", "live", none⟩], [], [], [], 1, 1⟩ 1
    ⟨1, "p", "single", "open", "live", none⟩ rfl).1⟩

/-- C9: for every category whose status is not open, a ballot POST is
rejected with the voting-closed page and the store is unchanged,
whatever the nickname, the selections and the storage behaviour. -/
theorem C9_not_open_rejects (st : DBState) (id : Int) (cat : Category)
    (form : VoteForm) (fs : FailSpec)
    (hc : GetCategory st id = some cat) (hs : cat.status ≠ "open") :
    handleVote st id form fs = (st, SubmitOutcome.votingClosed) := by
  rw [handleVote_some form fs hc, if_pos hs]

/-- C9 witness: a closed category rejects a well-formed ballot. -/
theorem C9_witness :
    GetCategory ⟨[⟨1, "p", "single", "closed", "live", none⟩],
        [⟨1, 1, "A", some 0⟩], [], [], 1, 1⟩ 1
      = some ⟨1, "p", "single", "closed", "live", none⟩ ∧
    ("closed" : String) ≠ "open" ∧
    handleVote ⟨[⟨1, "p", "single", "closed", "live", none⟩],
        [⟨1, 1, "A", some 0⟩], [], [], 1, 1⟩ 1 ⟨"zoe", ["1"], fun _ => ""⟩ noFail
      = (⟨[⟨1, "p", "single", "closed", "live", none⟩],
          [⟨1, 1, "A", some 0⟩], [], [], 1, 1⟩, SubmitOutcome.votingClosed) :=
  ⟨rfl, by decide, C9_not_open_rejects
    ⟨[⟨1, "p", "single", "closed", "live", none⟩], [⟨1, 1, "A", some 0⟩], [], [], 1, 1⟩ 1
    ⟨1, "p", "single", "closed", "live", none⟩ ⟨"zoe", ["1"], fun _ => ""⟩ noFail rfl
    (by decide)⟩

/-! ## Additional helpers for the ranked claims -/

theorem collectRanked_all_empty {form : VoteForm} (is : List Int) (seen : List Int)
    (h : ∀ i ∈ is, form.rank i = "") : collectRanked form is seen = Except.ok [] := by
  induction is generalizing seen with
  | nil => rfl
  | cons i rest ih =>
    show (if form.rank i = "" then collectRanked form rest seen else _) = _
    rw [if_pos (h i (List.mem_cons_self i rest))]
    exact ih seen (fun j hj => h j (List.mem_cons_of_mem i hj))

theorem collectSelections_ranked {cat : Category} {form : VoteForm}
    (hvt : cat.voteType = "ranked") :
    collectSelections cat form =
      match collectRanked form (rankIndices (effectiveMaxRank cat)) [] with
      | Except.error e => Except.error e
      | Except.ok [] => Except.error "Please make at least one selection"
      | Except.ok l => Except.ok l := by
  unfold collectSelections
  rw [hvt]
  rfl

/-- C8: for every ranked ballot with a non-empty nickname, a repeated
parsed option id at two different rank positions is rejected with
"Each choice must be different", and an all-empty rank form is
rejected with the no-selection message; in both cases the store is
untouched, under every storage schedule. -/
theorem C8_ranked_validation (st : DBState) (cat : Category) (form : VoteForm) (fs : FailSpec)
    (hvt : cat.voteType = "ranked") (hn : goTrimSpace form.nickname ≠ "") :
    ((∃ i ∈ rankIndices (effectiveMaxRank cat), ∃ j ∈ rankIndices (effectiveMaxRank cat),
        i ≠ j ∧ form.rank i ≠ "" ∧ form.rank j ≠ "" ∧
        goParseInt64 (form.rank i) = goParseInt64 (form.rank j)) →
      submitVote st cat form fs
        = (st, SubmitOutcome.validationError "Each choice must be different")) ∧
    ((∀ i ∈ rankIndices (effectiveMaxRank cat), form.rank i = "") →
      submitVote st cat form fs
        = (st, SubmitOutcome.validationError "Please make at least one selection")) := by
  constructor
  · rintro ⟨i, hi, j, hj, hij, hvi, hvj, heq⟩
    have hdup : collectRanked form (rankIndices (effectiveMaxRank cat)) []
        = Except.error "Each choice must be different" :=
      collectRanked_dup _ _ (Or.inl (parsedRankIds_not_nodup hi hj hij hvi hvj heq))
    have hcol : collectSelections cat form
        = Except.error "Each choice must be different" := by
      rw [collectSelections_ranked hvt, hdup]
    unfold submitVote
    rw [if_neg hn, hcol]
  · intro hall
    have hempty : collectRanked form (rankIndices (effectiveMaxRank cat)) []
        = Except.ok [] := collectRanked_all_empty _ _ hall
    have hcol : collectSelections cat form
        = Except.error "Please make at least one selection" := by
      rw [collectSelections_ranked hvt, hempty]
    unfold submitVote
    rw [if_neg hn, hcol]

/-- C8 witness: a ranked ballot repeating option id 5 at ranks 1 and 2
is rejected with the duplicate-choice error. -/
theorem C8_witness :
    ("ranked" : String) = "ranked" ∧
    goTrimSpace (⟨"zoe", [], fun i => if i = 1 then "5" else if i = 2 then "5" else ""⟩ :
        VoteForm).nickname ≠ "" ∧
    ((∃ i ∈ rankIndices (effectiveMaxRank ⟨1, "r", "ranked", "open", "live", some 3⟩),
        ∃ j ∈ rankIndices (effectiveMaxRank ⟨1, "r", "ranked", "open", "live", some 3⟩),
        i ≠ j ∧
        (⟨"zoe", [], fun i => if i = 1 then "5" else if i = 2 then "5" else ""⟩ :
            VoteForm).rank i ≠ "" ∧
        (⟨"zoe", [], fun i => if i = 1 then "5" else if i = 2 then "5" else ""⟩ :
            VoteForm).rank j ≠ "" ∧
        goParseInt64 ((⟨"zoe", [], fun i => if i = 1 then "5" else if i = 2 then "5" else ""⟩ :
            VoteForm).rank i)
          = goParseInt64 ((⟨"zoe", [], fun i => if i = 1 then "5" else if i = 2 then "5" else ""⟩ :
            VoteForm).rank j)) →
      submitVote ⟨[⟨1, "r", "ranked", "open", "live", some 3⟩], [], [], [], 1, 1⟩
        ⟨1, "r", "ranked", "open", "live", some 3⟩
        ⟨"zoe", [], fun i => if i = 1 then "5" else if i = 2 then "5" else ""⟩ noFail
        = (⟨[⟨1, "r", "ranked", "open", "live", some 3⟩], [], [], [], 1, 1⟩,
            SubmitOutcome.validationError "Each choice must be different")) ∧
    submitVote ⟨[⟨1, "r", "ranked", "open", "live", some 3⟩], [], [], [], 1, 1⟩
        ⟨1, "r", "ranked", "open", "live", some 3⟩
        ⟨"zoe", [], fun i => if i = 1 then "5" else if i = 2 then "5" else ""⟩ noFail
      = (⟨[⟨1, "r", "ranked", "open", "live", some 3⟩], [], [], [], 1, 1⟩,
          SubmitOutcome.validationError "Each choice must be different") := by
  have hthm := C8_ranked_validation
    ⟨[⟨1, "r", "ranked", "open", "live", some 3⟩], [], [], [], 1, 1⟩
    ⟨1, "r", "ranked", "open", "live", some 3⟩
    ⟨"zoe", [], fun i => if i = 1 then "5" else if i = 2 then "5" else ""⟩ noFail rfl
    (by decide)
  refine ⟨rfl, by decide, hthm.1, hthm.1 ?_⟩
  exact ⟨1, by decide, 2, by decide, by decide, by decide, by decide, by decide⟩

/-! ## Helpers for the parse-error claim -/

theorem goParseInt64_bad {s : String} (h : goIntSyntax s = false) : goParseInt64 s = 0 := by
  unfold goParseInt64
  unfold goIntSyntax at h
  rw [if_neg (by rw [h]; exact Bool.false_ne_true)]

theorem rankIndices_head {m : Int} (hm : 1 ≤ m) :
    ∃ rest, rankIndices m = 1 :: rest ∧ ∀ j ∈ rest, j ≠ 1 := by
  unfold rankIndices
  obtain ⟨k, hk⟩ : ∃ k, m.toNat = k + 1 := ⟨m.toNat - 1, by omega⟩
  rw [hk, List.range_succ_eq_map]
  refine ⟨((List.range k).map Nat.succ).map (fun (b : Nat) => ((b : Int) + 1)), by simp, ?_⟩
  intro j hj
  rw [List.mem_map] at hj
  obtain ⟨a, ha, hj⟩ := hj
  rw [List.mem_map] at ha
  obtain ⟨b, _, hab⟩ := ha
  omega

theorem collectRanked_single_head {form : VoteForm} {i : Int} {rest : List Int}
    {seen : List Int}
    (hv : form.rank i ≠ "") (hseen : goParseInt64 (form.rank i) ∉ seen)
    (hrest : ∀ j ∈ rest, form.rank j = "") :
    collectRanked form (i :: rest) seen
      = Except.ok [(goParseInt64 (form.rank i), some i)] := by
  show (if form.rank i = "" then _ else _) = _
  rw [if_neg hv, if_neg hseen, collectRanked_all_empty rest _ hrest]
  rfl

theorem runVoteTx_fk_option_missing {st : DBState} {cid : Int} {nick : String}
    {oid : Int} {r : Option Int} {rest : List (Int × Option Int)}
    (hcid : st.categories.any (fun c => c.id == cid) = true)
    (hmiss : st.options.any (fun o => o.id == oid) = false) :
    runVoteTx st cid nick ((oid, r) :: rest) noFail
      = (st, SubmitOutcome.storageError "Failed to save selection") := by
  unfold runVoteTx noFail
  simp only [Bool.false_eq_true, if_false]
  cases hup : upsertVote st cid nick with
  | error e =>
    exfalso
    unfold upsertVote at hup
    cases hf : findVote st cid nick with
    | some w => rw [hf] at hup; cases hup
    | none => rw [hf, if_pos hcid] at hup; cases hup
  | ok pr =>
    obtain ⟨stU, v⟩ := pr
    have hopts : stU.options = st.options := (upsertVote_categories hup).2.1
    have hins : insertSelections (DeleteVoteSelections stU v.id) v.id
        ((oid, r) :: rest) none 0 = Except.error () := by
      show (if (none : Option Nat) = some 0 then Except.error ()
        else match CreateVoteSelection (DeleteVoteSelections stU v.id) v.id oid r with
          | Except.error _ => Except.error ()
          | Except.ok st1 => insertSelections st1 v.id rest none 1) = Except.error ()
      rw [if_neg (by simp)]
      have hcvs : CreateVoteSelection (DeleteVoteSelections stU v.id) v.id oid r
          = Except.error () := by
        unfold CreateVoteSelection
        rw [if_neg ?hcond]
        case hcond =>
          have hDopts : (DeleteVoteSelections stU v.id).options = st.options := hopts
          rw [hDopts, hmiss]
          simp
      rw [hcvs]
    show (match insertSelections (DeleteVoteSelections stU v.id) v.id
        ((oid, r) :: rest) none 0 with
      | Except.error _ => (st, SubmitOutcome.storageError "Failed to save selection")
      | Except.ok tx3 => (tx3, SubmitOutcome.success nick)) = _
    rw [hins]

/-- C10: a non-empty, non-numeric option-id form value passes ballot
validation for all three vote types: the parse error is discarded and
option id 0 is used, so the submission reaches the storage transaction
and fails at the vote_selections.option_id foreign key (enforced since
db.Open turns foreign keys on), surfacing as the generic storage error
and leaving the store unchanged. -/
theorem C10_nonnumeric_id_hits_fk (st : DBState) (id : Int) (cat : Category)
    (form : VoteForm) (s : String)
    (hc : GetCategory st id = some cat)
    (hopen : cat.status = "open")
    (hnick : goTrimSpace form.nickname ≠ "")
    (hnum : goIntSyntax s = false) (hne : s ≠ "")
    (hopt0 : ∀ o ∈ st.options, o.id ≠ 0)
    (hform : (cat.voteType = "single" ∧ form.choice.headD "" = s) ∨
      (cat.voteType = "approval" ∧ form.choice = [s]) ∨
      (cat.voteType = "ranked" ∧ form.rank 1 = s ∧ (∀ i, i ≠ 1 → form.rank i = "") ∧
        1 ≤ effectiveMaxRank cat)) :
    goParseInt64 s = 0 ∧
    (∃ sels, collectSelections cat form = Except.ok sels ∧ sels ≠ [] ∧
      ∀ p ∈ sels, p.1 = 0) ∧
    handleVote st id form noFail
      = (st, SubmitOutcome.storageError "Failed to save selection") := by
  have hzero : goParseInt64 s = 0 := goParseInt64_bad hnum
  have hcid : st.categories.any (fun c => c.id == cat.id) = true := by
    obtain ⟨hmem, _⟩ := GetCategory_mem hc
    exact List.any_eq_true.mpr ⟨cat, hmem, beq_self_eq_true cat.id⟩
  have hmiss : st.options.any (fun o => o.id == (0 : Int)) = false := by
    rw [List.any_eq_false]
    intro o ho
    simpa using hopt0 o ho
  have hcol : ∃ sels, collectSelections cat form = Except.ok sels ∧ sels ≠ [] ∧
      (∀ p ∈ sels, p.1 = 0) ∧ ∃ r rs, sels = (0, r) :: rs := by
    rcases hform with ⟨hvt, hchoice⟩ | ⟨hvt, hchoice⟩ | ⟨hvt, h1, hall, hm⟩
    · refine ⟨[(0, none)], ?_, by simp, by simp, none, [], rfl⟩
      unfold collectSelections
      rw [hvt]
      rw [if_pos rfl, hchoice, if_neg hne, hzero]
    · refine ⟨[(0, none)], ?_, by simp, by simp, none, [], rfl⟩
      unfold collectSelections
      rw [hvt]
      rw [if_neg (by decide), if_pos rfl, hchoice,
        if_neg (by simp), List.map_cons, List.map_nil, hzero]
    · obtain ⟨rest, hri, hrest⟩ := rankIndices_head hm
      have hloop : collectRanked form (rankIndices (effectiveMaxRank cat)) []
          = Except.ok [(0, some 1)] := by
        rw [hri]
        rw [collectRanked_single_head (by rw [h1]; exact hne) (by simp)
          (fun j hj => hall j (hrest j hj))]
        rw [h1, hzero]
      refine ⟨[(0, some 1)], ?_, by simp, by simp, some 1, [], rfl⟩
      rw [collectSelections_ranked hvt, hloop]
  obtain ⟨sels, hcolv, hnil, hzeros, r, rs, hshape⟩ := hcol
  refine ⟨hzero, ⟨sels, hcolv, hnil, hzeros⟩, ?_⟩
  rw [handleVote_some form noFail hc, if_neg (by rw [hopen]; simp)]
  unfold submitVote
  rw [if_neg hnick, hcolv]
  subst hshape
  exact runVoteTx_fk_option_missing hcid hmiss

/-- C10 witness: the single-vote form value "abc" passes validation as
option id 0 and dies at the foreign key. -/
theorem C10_witness :
    goIntSyntax "abc" = false ∧ ("abc" : String) ≠ "" ∧
    handleVote ⟨[⟨1, "p", "single", "open", "live", none⟩],
        [⟨1, 1, "A", some 0⟩], [], [], 1, 1⟩ 1 ⟨"zoe", ["abc"], fun _ => ""⟩ noFail
      = (⟨[⟨1, "p", "single", "open", "live", none⟩], [⟨1, 1, "A", some 0⟩], [], [], 1, 1⟩,
          SubmitOutcome.storageError "Failed to save selection") :=
  ⟨rfl, by decide, (C10_nonnumeric_id_hits_fk
    ⟨[⟨1, "p", "single", "open", "live", none⟩], [⟨1, 1, "A", some 0⟩], [], [], 1, 1⟩ 1
    ⟨1, "p", "single", "open", "live", none⟩ ⟨"zoe", ["abc"], fun _ => ""⟩ "abc"
    rfl rfl (by decide) rfl (by decide) (by decide) (Or.inl ⟨rfl, rfl⟩)).2.2⟩

/-! ## Validation failures are independent of the storage schedule -/

theorem handleVote_validation_indep {st : DBState} {id : Int} {form : VoteForm}
    {fs : FailSpec} {msg : String}
    (h : (handleVote st id form fs).2 = SubmitOutcome.validationError msg) :
    ∀ fs2, handleVote st id form fs2 = (st, SubmitOutcome.validationError msg) := by
  intro fs2
  unfold handleVote at h ⊢
  cases hg : GetCategory st id with
  | none =>
    rw [hg] at h
    have h2 : SubmitOutcome.notFound = SubmitOutcome.validationError msg := h
    cases h2
  | some cat =>
    rw [hg] at h
    have h2 : (if cat.status ≠ "open" then (st, SubmitOutcome.votingClosed)
        else submitVote st cat form fs).2 = SubmitOutcome.validationError msg := h
    show (if cat.status ≠ "open" then (st, SubmitOutcome.votingClosed)
        else submitVote st cat form fs2) = (st, SubmitOutcome.validationError msg)
    by_cases hs : cat.status ≠ "open"
    · rw [if_pos hs] at h2
      have h3 : SubmitOutcome.votingClosed = SubmitOutcome.validationError msg := h2
      cases h3
    · rw [if_neg hs] at h2
      rw [if_neg hs]
      exact submitVote_validation_indep h2 fs2

/-- C7: every failing ballot submission leaves the store exactly as it
was — validation failures, the not-open rejection, and storage
failures at any transaction step all roll back to the pre-operation
state; moreover a validation failure is decided before storage is
consulted, so the same result arises under every storage schedule. -/
theorem C7_failed_submission_unchanged (st : DBState) (id : Int) (form : VoteForm)
    (fs : FailSpec)
    (hfail : ((handleVote st id form fs).2).isSuccess = false) :
    (handleVote st id form fs).1 = st ∧
    (∀ msg, (handleVote st id form fs).2 = SubmitOutcome.validationError msg →
      ∀ fs2, handleVote st id form fs2 = (st, SubmitOutcome.validationError msg)) :=
  ⟨handleVote_fail hfail, fun _ h fs2 => handleVote_validation_indep h fs2⟩

/-- C7 witness: a blank nickname fails validation and the store is
unchanged. -/
theorem C7_witness :
    ((handleVote ⟨[⟨1, "p", "single", "open", "live", none⟩],
        [⟨1, 1, "A", some 0⟩], [], [], 1, 1⟩ 1
        ⟨"  ", ["1"], fun _ => ""⟩ noFail).2).isSuccess = false ∧
    (handleVote ⟨[⟨1, "p", "single", "open", "live", none⟩],
        [⟨1, 1, "A", some 0⟩], [], [], 1, 1⟩ 1
        ⟨"  ", ["1"], fun _ => ""⟩ noFail).1
      = ⟨[⟨1, "p", "single", "open", "live", none⟩], [⟨1, 1, "A", some 0⟩], [], [], 1, 1⟩ :=
  ⟨rfl, (C7_failed_submission_unchanged
    ⟨[⟨1, "p", "single", "open", "live", none⟩], [⟨1, 1, "A", some 0⟩], [], [], 1, 1⟩ 1
    ⟨"  ", ["1"], fun _ => ""⟩ noFail rfl).1⟩

/-! ## The ranked tally claim -/

theorem effectiveMaxRank_getD (cat : Category) :
    effectiveMaxRank cat = cat.maxRank.getD 3 := by
  unfold effectiveMaxRank
  cases cat.maxRank <;> rfl

/-- C5: the ranked tally has exactly one row per option of the
category (zero-selection options included at 0 points and 0
first-place votes), each row's points are the sum over the option's
ranked selections of (stored max_rank, default 3) − rank + 1, its
first-place count is the number of its selections with rank 1, and
the rows are ordered by points descending, then first-place count
descending, then sort order, then option id. -/
theorem C5_ranked_tally (st : DBState) (cat : Category)
    (_hvt : cat.voteType = "ranked")
    (hids : (st.options.map (fun o => o.id)).Nodup) :
    (((TallyRanked st (effectiveMaxRank cat) cat.id).map (fun r => r.id)).Perm
        ((st.options.filter (fun o => o.categoryId == cat.id)).map (fun o => o.id))) ∧
    (∀ o ∈ st.options.filter (fun o => o.categoryId == cat.id),
      ∀ r ∈ TallyRanked st (effectiveMaxRank cat) cat.id, r.id = o.id →
        r.name = o.name ∧
        r.points = ((st.selections.filter (fun s => s.optionId == o.id)).filterMap
            (fun s => s.rank.map (fun rk => cat.maxRank.getD 3 - rk + 1))).sum ∧
        r.firstPlaceVotes
          = (st.selections.filter (fun s => s.optionId == o.id && s.rank == some 1)).length ∧
        (st.selections.filter (fun s => s.optionId == o.id) = [] →
          r.points = 0 ∧ r.firstPlaceVotes = 0)) ∧
    (TallyRanked st (effectiveMaxRank cat) cat.id).Pairwise (rankedOrder st) := by
  refine ⟨?_, ?_, ?_⟩
  · unfold TallyRanked
    rw [List.map_map]
    have hperm := (orderBy_perm (rankedKey st.selections (effectiveMaxRank cat))
      (st.options.filter (fun o => o.categoryId == cat.id))).map
      (fun (o : OptionRow) => o.id)
    exact hperm
  · intro o ho r hr hid
    unfold TallyRanked at hr
    rw [List.mem_map] at hr
    obtain ⟨o2, ho2, rfl⟩ := hr
    have ho2opts : o2 ∈ st.options :=
      List.mem_of_mem_filter ((orderBy_perm _ _).mem_iff.mp ho2)
    have hoopts : o ∈ st.options := List.mem_of_mem_filter ho
    have ho2o : o2 = o := List.inj_on_of_nodup_map hids ho2opts hoopts hid
    subst ho2o
    refine ⟨rfl, ?_, rfl, ?_⟩
    · show (((st.selections.filter (fun s => s.optionId == o2.id)).filterMap
        (fun s => s.rank)).map
        (fun rk => effectiveMaxRank cat - rk + 1)).sum = _
      rw [List.map_filterMap, effectiveMaxRank_getD]
    · intro hmt
      constructor
      · show (((st.selections.filter (fun s => s.optionId == o2.id)).filterMap
          (fun s => s.rank)).map
          (fun rk => effectiveMaxRank cat - rk + 1)).sum = 0
        rw [hmt]
        rfl
      · show (st.selections.filter
          (fun s => s.optionId == o2.id && s.rank == some 1)).length = 0
        have hnone := List.filter_eq_nil_iff.mp hmt
        rw [List.filter_eq_nil_iff.mpr ?_]
        · rfl
        · intro s hs
          simp only [Bool.and_eq_true, not_and]
          intro hopt
          exact absurd hopt (hnone s hs)
  · unfold TallyRanked
    rw [List.pairwise_map]
    refine List.Pairwise.imp_of_mem ?_ (orderBy_sorted _ _)
    intro a b ha hb hab
    have haopts : a ∈ st.options :=
      List.mem_of_mem_filter ((orderBy_perm _ _).mem_iff.mp ha)
    have hbopts : b ∈ st.options :=
      List.mem_of_mem_filter ((orderBy_perm _ _).mem_iff.mp hb)
    have hsa := sortOrderOf_mem hids haopts
    have hsb := sortOrderOf_mem hids hbopts
    show rankedPoints st.selections (effectiveMaxRank cat) b.id
        < rankedPoints st.selections (effectiveMaxRank cat) a.id ∨ _
    rcases rankedKey_le_iff.mp hab with h | ⟨h1, h | ⟨h2, h3⟩⟩
    · exact Or.inl h
    · exact Or.inr ⟨h1, Or.inl h⟩
    · refine Or.inr ⟨h1, Or.inr ⟨h2, ?_⟩⟩
      rcases h3 with h3 | ⟨h3, h4⟩
      · left
        show nullLT (sortOrderOf st a.id) (sortOrderOf st b.id)
        rw [hsa, hsb]
        exact h3
      · right
        refine ⟨?_, h4⟩
        show sortOrderOf st a.id = sortOrderOf st b.id
        rw [hsa, hsb, h3]

/-- C5 witness: the spec's own scenario — ranked category with
max_rank 3, options X, Y, Z, one ballot ranking X first and Y second;
the tally lists X with 3 points and one first-place vote, then Y with
2 points, then Z with 0. -/
theorem C5_witness :
    ("ranked" : String) = "ranked" ∧
    ((⟨[⟨2, "R", "ranked", "open", "live", some 3⟩],
        [⟨3, 2, "X", some 0⟩, ⟨4, 2, "Y", some 1⟩, ⟨5, 2, "Z", some 2⟩],
        [⟨1, 2, "bob"⟩], [⟨1, 1, 3, some 1⟩, ⟨2, 1, 4, some 2⟩], 2, 3⟩ :
          DBState).options.map (fun o => o.id)).Nodup ∧
    TallyRanked ⟨[⟨2, "R", "ranked", "open", "live", some 3⟩],
        [⟨3, 2, "X", some 0⟩, ⟨4, 2, "Y", some 1⟩, ⟨5, 2, "Z", some 2⟩],
        [⟨1, 2, "bob"⟩], [⟨1, 1, 3, some 1⟩, ⟨2, 1, 4, some 2⟩], 2, 3⟩
        (effectiveMaxRank ⟨2, "R", "ranked", "open", "live", some 3⟩) 2
      = [⟨3, "X", 3, 1⟩, ⟨4, "Y", 2, 0⟩, ⟨5, "Z", 0, 0⟩] ∧
    (TallyRanked ⟨[⟨2, "R", "ranked", "open", "live", some 3⟩],
        [⟨3, 2, "X", some 0⟩, ⟨4, 2, "Y", some 1⟩, ⟨5, 2, "Z", some 2⟩],
        [⟨1, 2, "bob"⟩], [⟨1, 1, 3, some 1⟩, ⟨2, 1, 4, some 2⟩], 2, 3⟩
        (effectiveMaxRank ⟨2, "R", "ranked", "open", "live", some 3⟩) 2).Pairwise
      (rankedOrder ⟨[⟨2, "R", "ranked", "open", "live", some 3⟩],
        [⟨3, 2, "X", some 0⟩, ⟨4, 2, "Y", some 1⟩, ⟨5, 2, "Z", some 2⟩],
        [⟨1, 2, "bob"⟩], [⟨1, 1, 3, some 1⟩, ⟨2, 1, 4, some 2⟩], 2, 3⟩) :=
  ⟨rfl, by decide, by decide,
    (C5_ranked_tally ⟨[⟨2, "R", "ranked", "open", "live", some 3⟩],
      [⟨3, 2, "X", some 0⟩, ⟨4, 2, "Y", some 1⟩, ⟨5, 2, "Z", some 2⟩],
      [⟨1, 2, "bob"⟩], [⟨1, 1, 3, some 1⟩, ⟨2, 1, 4, some 2⟩], 2, 3⟩
      ⟨2, "R", "ranked", "open", "live", some 3⟩ rfl (by decide)).2.2⟩

/-! ## The simple tally claim -/

theorem sum_map_one {α : Type} (l : List α) : (l.map (fun _ => (1 : Nat))).sum = l.length := by
  induction l with
  | nil => rfl
  | cons a as ih =>
    simp [ih]
    omega

/-- C6: the simple tally has exactly one row per option of the
category with its count equal to the number of selections referencing
that option (zero-selection options included at count 0), rows
ordered by count descending, then sort order, then option id; the sum
of the counts equals the number of selections cast on the category's
ballots, which for a single-vote category with one selection per
ballot equals the number of ballots. -/
theorem C6_simple_tally (st : DBState) (cat : Category)
    (_hvt : cat.voteType = "single" ∨ cat.voteType = "approval")
    (hids : (st.options.map (fun o => o.id)).Nodup)
    (hvids : (st.votes.map (fun v => v.id)).Nodup)
    (hlink : ∀ s ∈ st.selections,
      (s.optionId ∈ (st.options.filter (fun o => o.categoryId == cat.id)).map (fun o => o.id) ↔
        s.voteId ∈ (st.votes.filter (fun v => v.categoryId == cat.id)).map (fun v => v.id))) :
    (((TallySimple st cat.id).map (fun r => r.id)).Perm
        ((st.options.filter (fun o => o.categoryId == cat.id)).map (fun o => o.id))) ∧
    (∀ o ∈ st.options.filter (fun o => o.categoryId == cat.id),
      ∀ r ∈ TallySimple st cat.id, r.id = o.id →
        r.name = o.name ∧
        r.votes = (st.selections.filter (fun s => s.optionId == o.id)).length ∧
        (st.selections.filter (fun s => s.optionId == o.id) = [] → r.votes = 0)) ∧
    (TallySimple st cat.id).Pairwise (simpleOrder st) ∧
    ((TallySimple st cat.id).map (fun r => r.votes)).sum
      = (st.selections.filter (fun s =>
          decide (s.voteId ∈ (st.votes.filter (fun v => v.categoryId == cat.id)).map
            (fun v => v.id)))).length ∧
    ((∀ v ∈ st.votes.filter (fun v => v.categoryId == cat.id),
        (st.selections.filter (fun s => s.voteId == v.id)).length = 1) →
      ((TallySimple st cat.id).map (fun r => r.votes)).sum
        = (st.votes.filter (fun v => v.categoryId == cat.id)).length) := by
  have hndo : ((st.options.filter (fun o => o.categoryId == cat.id)).map
      (fun o => o.id)).Nodup :=
    List.Nodup.sublist ((List.filter_sublist st.options).map (fun o => o.id)) hids
  have hndv : ((st.votes.filter (fun v => v.categoryId == cat.id)).map
      (fun v => v.id)).Nodup :=
    List.Nodup.sublist ((List.filter_sublist st.votes).map (fun v => v.id)) hvids
  have hsum : ((TallySimple st cat.id).map (fun r => r.votes)).sum
      = (st.selections.filter (fun s =>
          decide (s.voteId ∈ (st.votes.filter (fun v => v.categoryId == cat.id)).map
            (fun v => v.id)))).length := by
    have h1 : ((TallySimple st cat.id).map (fun r => r.votes)).sum
        = (((st.options.filter (fun o => o.categoryId == cat.id)).map (fun o => o.id)).map
            (fun k => (st.selections.filter (fun s => s.optionId == k)).length)).sum := by
      unfold TallySimple
      rw [List.map_map, List.map_map]
      have hperm := (orderBy_perm (simpleKey st.selections)
        (st.options.filter (fun o => o.categoryId == cat.id))).map
        (fun (o : OptionRow) => selCount st.selections o.id)
      exact hperm.sum_eq
    have hsc := sum_counts (fun (s : VoteSelection) => s.optionId)
      ((st.options.filter (fun o => o.categoryId == cat.id)).map (fun o => o.id))
      st.selections hndo
    rw [h1, hsc]
    apply congrArg List.length
    apply List.filter_congr
    intro s hs
    exact decide_eq_decide.mpr (hlink s hs)
  refine ⟨?_, ?_, ?_, hsum, ?_⟩
  · unfold TallySimple
    rw [List.map_map]
    have hperm := (orderBy_perm (simpleKey st.selections)
      (st.options.filter (fun o => o.categoryId == cat.id))).map
      (fun (o : OptionRow) => o.id)
    exact hperm
  · intro o ho r hr hid
    unfold TallySimple at hr
    rw [List.mem_map] at hr
    obtain ⟨o2, ho2, rfl⟩ := hr
    have ho2opts : o2 ∈ st.options :=
      List.mem_of_mem_filter ((orderBy_perm _ _).mem_iff.mp ho2)
    have hoopts : o ∈ st.options := List.mem_of_mem_filter ho
    have ho2o : o2 = o := List.inj_on_of_nodup_map hids ho2opts hoopts hid
    subst ho2o
    refine ⟨rfl, rfl, ?_⟩
    intro hmt
    show (st.selections.filter (fun s => s.optionId == o2.id)).length = 0
    rw [hmt]
    rfl
  · unfold TallySimple
    rw [List.pairwise_map]
    refine List.Pairwise.imp_of_mem ?_ (orderBy_sorted _ _)
    intro a b ha hb hab
    have haopts : a ∈ st.options :=
      List.mem_of_mem_filter ((orderBy_perm _ _).mem_iff.mp ha)
    have hbopts : b ∈ st.options :=
      List.mem_of_mem_filter ((orderBy_perm _ _).mem_iff.mp hb)
    have hsa := sortOrderOf_mem hids haopts
    have hsb := sortOrderOf_mem hids hbopts
    show selCount st.selections b.id < selCount st.selections a.id ∨ _
    rcases simpleKey_le_iff.mp hab with h | ⟨h1, h2⟩
    · exact Or.inl h
    · refine Or.inr ⟨h1, ?_⟩
      rcases h2 with h2 | ⟨h2, h3⟩
      · left
        show nullLT (sortOrderOf st a.id) (sortOrderOf st b.id)
        rw [hsa, hsb]
        exact h2
      · right
        refine ⟨?_, h3⟩
        show sortOrderOf st a.id = sortOrderOf st b.id
        rw [hsa, hsb, h2]
  · intro hone
    rw [hsum]
    have h2 : (st.selections.filter (fun s =>
        decide (s.voteId ∈ (st.votes.filter (fun v => v.categoryId == cat.id)).map
          (fun v => v.id)))).length
        = (((st.votes.filter (fun v => v.categoryId == cat.id)).map (fun v => v.id)).map
            (fun k => (st.selections.filter (fun s => s.voteId == k)).length)).sum :=
      (sum_counts (fun (s : VoteSelection) => s.voteId)
        ((st.votes.filter (fun v => v.categoryId == cat.id)).map (fun v => v.id))
        st.selections hndv).symm
    rw [h2, List.map_map]
    have h3 : (st.votes.filter (fun v => v.categoryId == cat.id)).map
        ((fun k => (st.selections.filter (fun s => s.voteId == k)).length) ∘ (fun v => v.id))
        = (st.votes.filter (fun v => v.categoryId == cat.id)).map (fun _ => 1) := by
      apply List.map_congr_left
      intro v hv
      exact hone v hv
    rw [h3, sum_map_one]

/-- C6 witness: the spec's own scenario after the re-vote — single
category with options A and B and one ballot choosing B: the tally is
B = 1 then A = 0, and the counts sum to the one ballot. -/
theorem C6_witness :
    (("single" : String) = "single" ∨ ("single" : String) = "approval") ∧
    TallySimple ⟨[⟨1, "Best Costume", "single", "open", "live", none⟩],
        [⟨1, 1, "A", some 0⟩, ⟨2, 1, "B", some 1⟩],
        [⟨1, 1, "zoe"⟩], [⟨2, 1, 2, none⟩], 2, 3⟩ 1
      = [⟨2, "B", 1⟩, ⟨1, "A", 0⟩] ∧
    ((TallySimple ⟨[⟨1, "Best Costume", "single", "open", "live", none⟩],
        [⟨1, 1, "A", some 0⟩, ⟨2, 1, "B", some 1⟩],
        [⟨1, 1, "zoe"⟩], [⟨2, 1, 2, none⟩], 2, 3⟩ 1).map (fun r => r.votes)).sum
      = ((⟨[⟨1, "Best Costume", "single", "open", "live", none⟩],
        [⟨1, 1, "A", some 0⟩, ⟨2, 1, "B", some 1⟩],
        [⟨1, 1, "zoe"⟩], [⟨2, 1, 2, none⟩], 2, 3⟩ : DBState).votes.filter
          (fun v => v.categoryId == (1 : Int))).length :=
  ⟨Or.inl rfl, by decide,
    (C6_simple_tally ⟨[⟨1, "Best Costume", "single", "open", "live", none⟩],
      [⟨1, 1, "A", some 0⟩, ⟨2, 1, "B", some 1⟩],
      [⟨1, 1, "zoe"⟩], [⟨2, 1, 2, none⟩], 2, 3⟩
      ⟨1, "Best Costume", "single", "open", "live", none⟩
      (Or.inl rfl) (by decide) (by decide) (by decide)).2.2.2.2 (by decide)⟩

/-! ## State description of a successful submission -/

theorem submitVote_success_state {st st' : DBState} {cat : Category} {form : VoteForm}
    {n : String}
    (h : submitVote st cat form noFail = (st', SubmitOutcome.success n)) :
    st'.categories = st.categories ∧ st'.options = st.options ∧
    ∃ sels v,
      collectSelections cat form = Except.ok sels ∧
      ((findVote st cat.id (normNick form.nickname) = some v ∧ st'.votes = st.votes) ∨
        (findVote st cat.id (normNick form.nickname) = none ∧
          v = { id := st.nextVoteId, categoryId := cat.id,
                nickname := normNick form.nickname } ∧
          st'.votes = st.votes ++ [v])) ∧
      findVote st' cat.id (normNick form.nickname) = some v ∧
      (st'.selections.filter (fun s => s.voteId == v.id)).map (fun s => (s.optionId, s.rank))
        = sels := by
  obtain ⟨hn, sels, hcol, htx⟩ := submitVote_success h
  obtain ⟨hnick, stU, v, hup, hins⟩ := runVoteTx_success htx
  obtain ⟨hcats, hopts, hvotes, hnvid, news, hsel, hmap, hvid⟩ := insertSelections_ok hins
  obtain ⟨hUc, hUo, hUs, hUn⟩ := upsertVote_categories hup
  have hdel : (DeleteVoteSelections stU v.id).selections
      = stU.selections.filter (fun s => !(s.voteId == v.id)) := rfl
  have hdelc : (DeleteVoteSelections stU v.id).categories = stU.categories := rfl
  have hdelo : (DeleteVoteSelections stU v.id).options = stU.options := rfl
  have hdelv : (DeleteVoteSelections stU v.id).votes = stU.votes := rfl
  have hvotesU : st'.votes = stU.votes := by rw [hvotes, hdelv]
  have hselU : st'.selections = stU.selections.filter (fun s => !(s.voteId == v.id)) ++ news := by
    rw [hsel, hdel]
  refine ⟨by rw [hcats, hdelc, hUc], by rw [hopts, hdelo, hUo], sels, v, hcol, ?_, ?_, ?_⟩
  · rcases upsertVote_ok hup with ⟨hf, rfl⟩ | ⟨hf, hv, rfl⟩
    · exact Or.inl ⟨hf, hvotesU⟩
    · exact Or.inr ⟨hf, hv, by rw [hvotesU]⟩
  · rcases upsertVote_ok hup with ⟨hf, rfl⟩ | ⟨hf, hv, rfl⟩
    · show st'.votes.find? (fun w => w.categoryId == cat.id &&
        w.nickname == normNick form.nickname) = some v
      rw [hvotesU]
      exact hf
    · show st'.votes.find? (fun w => w.categoryId == cat.id &&
        w.nickname == normNick form.nickname) = some v
      rw [hvotesU]
      show (st.votes ++ [v]).find? (fun w => w.categoryId == cat.id &&
        w.nickname == normNick form.nickname) = some v
      rw [find?_append_none hf]
      subst hv
      simp [List.find?_cons]
  · rw [hselU, hUs, filter_delete_append hvid, hmap]

/-- C2: two successful ballot submissions whose nicknames agree after
trimming and lowercasing leave exactly one Vote row for the
(category, normalized nickname) pair, and the stored selections after
the second submission are exactly the second submission's validated
selection set — a full replacement, not a union. -/
theorem C2_revote_single_row (st : DBState) (cid : Int) (f1 f2 : VoteForm) (n1 n2 : String)
    (hnd : (st.votes.map (fun v => (v.categoryId, v.nickname))).Nodup)
    (hnick : normNick f1.nickname = normNick f2.nickname)
    (h1 : (handleVote st cid f1 noFail).2 = SubmitOutcome.success n1)
    (h2 : ((handleVote (handleVote st cid f1 noFail).1 cid f2 noFail).2)
      = SubmitOutcome.success n2) :
    (((handleVote (handleVote st cid f1 noFail).1 cid f2 noFail).1).votes.filter
        (fun v => v.categoryId == cid && v.nickname == normNick f2.nickname)).length = 1 ∧
    ∃ cat v sels2,
      GetCategory st cid = some cat ∧
      collectSelections cat f2 = Except.ok sels2 ∧
      findVote (handleVote (handleVote st cid f1 noFail).1 cid f2 noFail).1 cid
        (normNick f2.nickname) = some v ∧
      (((handleVote (handleVote st cid f1 noFail).1 cid f2 noFail).1).selections.filter
          (fun s => s.voteId == v.id)).map (fun s => (s.optionId, s.rank)) = sels2 := by
  have h1p : handleVote st cid f1 noFail
      = ((handleVote st cid f1 noFail).1, SubmitOutcome.success n1) := by
    rw [← h1]
  obtain ⟨cat, hgc, hopen, hsub1⟩ := handleVote_success h1p
  obtain ⟨hmem, hcatid⟩ := GetCategory_mem hgc
  subst hcatid
  obtain ⟨hc1, ho1, sels1, v1, hcol1, hcase1, hfv1, hmap1⟩ := submitVote_success_state hsub1
  have hgc1 : GetCategory (handleVote st cat.id f1 noFail).1 cat.id = some cat := by
    show ((handleVote st cat.id f1 noFail).1).categories.find? (fun c => c.id == cat.id)
      = some cat
    rw [hc1]
    exact hgc
  have h2p : handleVote (handleVote st cat.id f1 noFail).1 cat.id f2 noFail
      = ((handleVote (handleVote st cat.id f1 noFail).1 cat.id f2 noFail).1,
          SubmitOutcome.success n2) := by
    rw [← h2]
  obtain ⟨cat2, hgc2, hopen2, hsub2⟩ := handleVote_success h2p
  have hcat2 : cat2 = cat := by
    rw [hgc1] at hgc2
    injection hgc2 with h
    exact h.symm
  rw [hcat2] at hgc2 hopen2 hsub2
  obtain ⟨hc2, ho2, sels2, v2, hcol2, hcase2, hfv2, hmap2⟩ := submitVote_success_state hsub2
  -- the second upsert necessarily finds the row written by the first
  have hfound1 : findVote (handleVote st cat.id f1 noFail).1 cat.id (normNick f2.nickname)
      = some v1 := by
    rw [← hnick]
    exact hfv1
  have hcase2f : findVote (handleVote st cat.id f1 noFail).1 cat.id (normNick f2.nickname)
        = some v2 ∧
      ((handleVote (handleVote st cat.id f1 noFail).1 cat.id f2 noFail).1).votes
        = ((handleVote st cat.id f1 noFail).1).votes := by
    rcases hcase2 with ⟨hf, hv⟩ | ⟨hf, _, _⟩
    · exact ⟨hf, hv⟩
    · rw [hfound1] at hf
      cases hf
  -- exactly one row for the pair after the second submission
  have hcount1 : (((handleVote st cat.id f1 noFail).1).votes.filter
      (fun v => v.categoryId == cat.id && v.nickname == normNick f2.nickname)).length = 1 := by
    rw [← hnick]
    rcases hcase1 with ⟨hf, hv⟩ | ⟨hf, hvdef, hv⟩
    · rw [hv]
      exact count_pair_one hnd hf
    · rw [hv, List.filter_append]
      rw [filter_pair_nil (findVote_none hf)]
      subst hvdef
      simp [List.filter_cons]
  refine ⟨?_, cat, v2, sels2, hgc, hcol2, hfv2, hmap2⟩
  rw [hcase2f.2]
  exact hcount1

/-- C2 witness: the spec's own scenario — voting as " Zoe " for
option 1, then as "ZOE" for option 2, leaves one Vote row for
(category 1, "zoe"). -/
theorem C2_witness :
    ((⟨[⟨1, "Best", "single", "open", "live", none⟩],
        [⟨1, 1, "A", some 0⟩, ⟨2, 1, "B", some 1⟩], [], [], 1, 1⟩ : DBState).votes.map
      (fun v => (v.categoryId, v.nickname))).Nodup ∧
    normNick " Zoe " = normNick "ZOE" ∧
    (handleVote ⟨[⟨1, "Best", "single", "open", "live", none⟩],
        [⟨1, 1, "A", some 0⟩, ⟨2, 1, "B", some 1⟩], [], [], 1, 1⟩ 1
      ⟨" Zoe ", ["1"], fun _ => ""⟩ noFail).2 = SubmitOutcome.success "zoe" ∧
    (handleVote (handleVote ⟨[⟨1, "Best", "single", "open", "live", none⟩],
          [⟨1, 1, "A", some 0⟩, ⟨2, 1, "B", some 1⟩], [], [], 1, 1⟩ 1
        ⟨" Zoe ", ["1"], fun _ => ""⟩ noFail).1 1
      ⟨"ZOE", ["2"], fun _ => ""⟩ noFail).2 = SubmitOutcome.success "zoe" ∧
    (((handleVote (handleVote ⟨[⟨1, "Best", "single", "open", "live", none⟩],
            [⟨1, 1, "A", some 0⟩, ⟨2, 1, "B", some 1⟩], [], [], 1, 1⟩ 1
          ⟨" Zoe ", ["1"], fun _ => ""⟩ noFail).1 1
        ⟨"ZOE", ["2"], fun _ => ""⟩ noFail).1).votes.filter
        (fun v => v.categoryId == 1 && v.nickname == normNick "ZOE")).length = 1 :=
  ⟨by decide, by decide, rfl, rfl,
    (C2_revote_single_row ⟨[⟨1, "Best", "single", "open", "live", none⟩],
        [⟨1, 1, "A", some 0⟩, ⟨2, 1, "B", some 1⟩], [], [], 1, 1⟩ 1
      ⟨" Zoe ", ["1"], fun _ => ""⟩ ⟨"ZOE", ["2"], fun _ => ""⟩ "zoe" "zoe"
      (by decide) (by decide) rfl rfl).1⟩

end Votigo
